import Mathlib

/-!
# Verification of the Shell Motorsport RC car protocol and input-mapping layer

A shallow embedding, in Lean 4, of the protocol core of the
`shell-motorsport-rc-lib` Python library:

* `encryption.py`   — `MessageEncryptor.encrypt` / `MessageEncryptor.decrypt`
  (AES-128 in ECB mode on single 16-byte blocks).  The external AES-128 block
  cipher used by the library (`Crypto.Cipher.AES`) is modelled here in full,
  following FIPS-197, with bytes as `Nat` values below 256.
* `shell_motorsport.py` — the 16-byte control frame (`_create_message`), the
  precomputed-command table (`precompute_messages`,
  `retrieve_precomputed_message`) together with base64 encoding of stored
  ciphertexts, modelled with explicit state passing.
* `joycon_handler.py` — `JoyConHandler`: deadzone handling, speed-button
  priority, centre calibration, and `parse_joycon_status` over a model of
  Python dictionary values (exceptions are modelled with `Except`).

Theorems `C1_…` to `C10_…` at the end of the file settle the corresponding
specification claims.
-/

set_option maxRecDepth 10000

/-! ## Nat xor helper lemmas -/

theorem xor_left_comm (a b c : Nat) : a ^^^ (b ^^^ c) = b ^^^ (a ^^^ c) := by
  rw [← Nat.xor_assoc, Nat.xor_comm a b, Nat.xor_assoc]

theorem xor_right_comm (a b c : Nat) : (a ^^^ b) ^^^ c = (a ^^^ c) ^^^ b := by
  rw [Nat.xor_assoc, Nat.xor_comm b c, ← Nat.xor_assoc]

theorem xor_lt_256 {a b : Nat} (ha : a < 256) (hb : b < 256) : a ^^^ b < 256 := by
  have h := Nat.xor_lt_two_pow (n := 8) (by simpa using ha) (by simpa using hb)
  simpa using h

theorem two_mul_xor (a b : Nat) : 2 * a ^^^ 2 * b = 2 * (a ^^^ b) := by
  have h := Nat.xor_bit false a false b
  simpa [Nat.bit] using h

theorem testBit7_false {a : Nat} (h : a < 128) : a.testBit 7 = false :=
  Nat.testBit_eq_false_of_lt (by simpa using h)

theorem testBit_false_of_lt_256 {a : Nat} (h : a < 256) {i : Nat} (hi : 8 ≤ i) :
    a.testBit i = false := by
  apply Nat.testBit_eq_false_of_lt
  calc a < 2 ^ 8 := by simpa using h
    _ ≤ 2 ^ i := Nat.pow_le_pow_right (by norm_num) hi

theorem testBit7_true {a : Nat} (h1 : 128 ≤ a) (h2 : a < 256) : a.testBit 7 = true := by
  have e : a = 2 ^ 7 + (a - 128) := by
    have h7 : (2 : Nat) ^ 7 = 128 := by norm_num
    omega
  rw [e, Nat.testBit_two_pow_add_eq, testBit7_false (by omega)]
  rfl

theorem lt_128_of_testBit7 {a : Nat} (h2 : a < 256) (h : a.testBit 7 = false) : a < 128 := by
  have h128 : a < 2 ^ 7 := by
    refine Nat.lt_pow_two_of_testBit a (fun i hi => ?_)
    rcases Nat.eq_or_lt_of_le hi with h7 | h8
    · simpa [← h7] using h
    · exact testBit_false_of_lt_256 h2 h8
  simpa using h128

/-! ## GF(2^8) doubling (`xtime`) and the fixed MixColumns multipliers -/

/-- Multiplication by x in GF(2^8) modulo the AES polynomial x^8+x^4+x^3+x+1. -/
def xtime (b : Nat) : Nat :=
  if b < 128 then 2 * b else (2 * b) ^^^ 283

theorem xtime_lt {b : Nat} (h : b < 256) : xtime b < 256 := by
  unfold xtime
  split
  · omega
  · have h1 : 2 * b < 512 := by omega
    have h2 : 2 * b ^^^ 283 < 512 := by
      have := Nat.xor_lt_two_pow (n := 9) (x := 2 * b) (y := 283) (by simpa using h1) (by norm_num)
      simpa using this
    have hb8 : (2 * b).testBit 8 = true := by
      have e : 2 * b = 2 ^ 8 + (2 * b - 256) := by
        have h8 : (2 : Nat) ^ 8 = 256 := by norm_num
        omega
      have hlt : 2 * b - 256 < 2 ^ 8 := by
        have h8 : (2 : Nat) ^ 8 = 256 := by norm_num
        omega
      rw [e, Nat.testBit_two_pow_add_eq, Nat.testBit_eq_false_of_lt hlt]
      rfl
    have h3 : (2 * b ^^^ 283).testBit 8 = false := by
      rw [Nat.testBit_xor, hb8]
      decide
    have h4 : 2 * b ^^^ 283 < 2 ^ 8 := by
      refine Nat.lt_pow_two_of_testBit _ (fun i hi => ?_)
      rcases Nat.eq_or_lt_of_le hi with h8 | h9
      · simpa [← h8] using h3
      · apply Nat.testBit_eq_false_of_lt
        calc 2 * b ^^^ 283 < 2 ^ 9 := by simpa using h2
          _ ≤ 2 ^ i := Nat.pow_le_pow_right (by norm_num) h9
    simpa using h4

theorem xtime_xor {a b : Nat} (ha : a < 256) (hb : b < 256) :
    xtime (a ^^^ b) = xtime a ^^^ xtime b := by
  by_cases h1 : a < 128 <;> by_cases h2 : b < 128
  · have hlow : a ^^^ b < 128 := by
      have := Nat.xor_lt_two_pow (n := 7) (x := a) (y := b) (by simpa using h1) (by simpa using h2)
      simpa using this
    simp [xtime, h1, h2, hlow, two_mul_xor]
  · have hbit : (a ^^^ b).testBit 7 = true := by
      rw [Nat.testBit_xor, testBit7_false h1, testBit7_true (by omega) hb]
      rfl
    have hge : ¬ a ^^^ b < 128 := by
      have := Nat.testBit_implies_ge hbit
      simp at this; omega
    simp only [xtime, if_pos h1, if_neg h2, if_neg hge]
    rw [← two_mul_xor, Nat.xor_assoc]
  · have hbit : (a ^^^ b).testBit 7 = true := by
      rw [Nat.testBit_xor, testBit7_true (by omega) ha, testBit7_false h2]
      rfl
    have hge : ¬ a ^^^ b < 128 := by
      have := Nat.testBit_implies_ge hbit
      simp at this; omega
    simp only [xtime, if_neg h1, if_pos h2, if_neg hge]
    rw [← two_mul_xor, xor_right_comm]
  · have hbit : (a ^^^ b).testBit 7 = false := by
      rw [Nat.testBit_xor, testBit7_true (by omega) ha, testBit7_true (by omega) hb]
      rfl
    have hlow : a ^^^ b < 128 := lt_128_of_testBit7 (xor_lt_256 ha hb) hbit
    simp only [xtime, if_neg h1, if_neg h2, if_pos hlow]
    rw [← two_mul_xor]
    have hc : (2 * a ^^^ 283) ^^^ (2 * b ^^^ 283)
        = (2 * a ^^^ 2 * b) ^^^ (283 ^^^ 283) := by ac_rfl
    rw [hc]
    simp

/-- Multiplication by 2 in GF(2^8), as used by MixColumns. -/
def mul2 (b : Nat) : Nat := xtime b

/-- Multiplication by 3 in GF(2^8). -/
def mul3 (b : Nat) : Nat := xtime b ^^^ b

/-- Multiplication by 9 in GF(2^8), as used by InvMixColumns. -/
def mul9 (b : Nat) : Nat := xtime (xtime (xtime b)) ^^^ b

/-- Multiplication by 11 in GF(2^8). -/
def mul11 (b : Nat) : Nat := xtime (xtime (xtime b)) ^^^ xtime b ^^^ b

/-- Multiplication by 13 in GF(2^8). -/
def mul13 (b : Nat) : Nat := xtime (xtime (xtime b)) ^^^ xtime (xtime b) ^^^ b

/-- Multiplication by 14 in GF(2^8). -/
def mul14 (b : Nat) : Nat := xtime (xtime (xtime b)) ^^^ xtime (xtime b) ^^^ xtime b

theorem mul2_lt {b : Nat} (h : b < 256) : mul2 b < 256 := xtime_lt h

theorem mul3_lt {b : Nat} (h : b < 256) : mul3 b < 256 := xor_lt_256 (xtime_lt h) h

theorem mul9_lt {b : Nat} (h : b < 256) : mul9 b < 256 :=
  xor_lt_256 (xtime_lt (xtime_lt (xtime_lt h))) h

theorem mul11_lt {b : Nat} (h : b < 256) : mul11 b < 256 :=
  xor_lt_256 (xor_lt_256 (xtime_lt (xtime_lt (xtime_lt h))) (xtime_lt h)) h

theorem mul13_lt {b : Nat} (h : b < 256) : mul13 b < 256 :=
  xor_lt_256 (xor_lt_256 (xtime_lt (xtime_lt (xtime_lt h))) (xtime_lt (xtime_lt h))) h

theorem mul14_lt {b : Nat} (h : b < 256) : mul14 b < 256 :=
  xor_lt_256 (xor_lt_256 (xtime_lt (xtime_lt (xtime_lt h))) (xtime_lt (xtime_lt h))) (xtime_lt h)

theorem mul2_xor {a b : Nat} (ha : a < 256) (hb : b < 256) :
    mul2 (a ^^^ b) = mul2 a ^^^ mul2 b := xtime_xor ha hb

theorem mul3_xor {a b : Nat} (ha : a < 256) (hb : b < 256) :
    mul3 (a ^^^ b) = mul3 a ^^^ mul3 b := by
  unfold mul3
  rw [xtime_xor ha hb]
  ac_rfl

theorem mul9_xor {a b : Nat} (ha : a < 256) (hb : b < 256) :
    mul9 (a ^^^ b) = mul9 a ^^^ mul9 b := by
  unfold mul9
  rw [xtime_xor ha hb, xtime_xor (xtime_lt ha) (xtime_lt hb),
    xtime_xor (xtime_lt (xtime_lt ha)) (xtime_lt (xtime_lt hb))]
  ac_rfl

theorem mul11_xor {a b : Nat} (ha : a < 256) (hb : b < 256) :
    mul11 (a ^^^ b) = mul11 a ^^^ mul11 b := by
  unfold mul11
  rw [xtime_xor ha hb, xtime_xor (xtime_lt ha) (xtime_lt hb),
    xtime_xor (xtime_lt (xtime_lt ha)) (xtime_lt (xtime_lt hb))]
  ac_rfl

theorem mul13_xor {a b : Nat} (ha : a < 256) (hb : b < 256) :
    mul13 (a ^^^ b) = mul13 a ^^^ mul13 b := by
  unfold mul13
  rw [xtime_xor ha hb, xtime_xor (xtime_lt ha) (xtime_lt hb),
    xtime_xor (xtime_lt (xtime_lt ha)) (xtime_lt (xtime_lt hb))]
  ac_rfl

theorem mul14_xor {a b : Nat} (ha : a < 256) (hb : b < 256) :
    mul14 (a ^^^ b) = mul14 a ^^^ mul14 b := by
  unfold mul14
  rw [xtime_xor ha hb, xtime_xor (xtime_lt ha) (xtime_lt hb),
    xtime_xor (xtime_lt (xtime_lt ha)) (xtime_lt (xtime_lt hb))]
  ac_rfl

/-! ## MixColumns on a single state column -/

/-- The MixColumns transform of one four-byte column. -/
def mixCol : Nat × Nat × Nat × Nat → Nat × Nat × Nat × Nat
  | (a, b, c, d) =>
    (mul2 a ^^^ mul3 b ^^^ c ^^^ d,
     a ^^^ mul2 b ^^^ mul3 c ^^^ d,
     a ^^^ b ^^^ mul2 c ^^^ mul3 d,
     mul3 a ^^^ b ^^^ c ^^^ mul2 d)

/-- The InvMixColumns transform of one four-byte column. -/
def invMixCol : Nat × Nat × Nat × Nat → Nat × Nat × Nat × Nat
  | (a, b, c, d) =>
    (mul14 a ^^^ mul11 b ^^^ mul13 c ^^^ mul9 d,
     mul9 a ^^^ mul14 b ^^^ mul11 c ^^^ mul13 d,
     mul13 a ^^^ mul9 b ^^^ mul14 c ^^^ mul11 d,
     mul11 a ^^^ mul13 b ^^^ mul9 c ^^^ mul14 d)

/-- Componentwise xor of two columns. -/
def colXor : Nat × Nat × Nat × Nat → Nat × Nat × Nat × Nat → Nat × Nat × Nat × Nat
  | (a, b, c, d), (a', b', c', d') => (a ^^^ a', b ^^^ b', c ^^^ c', d ^^^ d')

/-- All four bytes of a column are genuine bytes. -/
def colWf (x : Nat × Nat × Nat × Nat) : Prop :=
  x.1 < 256 ∧ x.2.1 < 256 ∧ x.2.2.1 < 256 ∧ x.2.2.2 < 256

theorem colXor_wf {x y : Nat × Nat × Nat × Nat} (hx : colWf x) (hy : colWf y) :
    colWf (colXor x y) := by
  obtain ⟨a, b, c, d⟩ := x
  obtain ⟨a', b', c', d'⟩ := y
  obtain ⟨ha, hb, hc, hd⟩ := hx
  obtain ⟨ha', hb', hc', hd'⟩ := hy
  exact ⟨xor_lt_256 ha ha', xor_lt_256 hb hb', xor_lt_256 hc hc', xor_lt_256 hd hd'⟩

theorem mixCol_wf {x : Nat × Nat × Nat × Nat} (hx : colWf x) : colWf (mixCol x) := by
  obtain ⟨a, b, c, d⟩ := x
  obtain ⟨ha, hb, hc, hd⟩ := hx
  simp only [mixCol, colWf]
  exact ⟨xor_lt_256 (xor_lt_256 (xor_lt_256 (mul2_lt ha) (mul3_lt hb)) hc) hd,
    xor_lt_256 (xor_lt_256 (xor_lt_256 ha (mul2_lt hb)) (mul3_lt hc)) hd,
    xor_lt_256 (xor_lt_256 (xor_lt_256 ha hb) (mul2_lt hc)) (mul3_lt hd),
    xor_lt_256 (xor_lt_256 (xor_lt_256 (mul3_lt ha) hb) hc) (mul2_lt hd)⟩

theorem mixCol_xor {x y : Nat × Nat × Nat × Nat} (hx : colWf x) (hy : colWf y) :
    mixCol (colXor x y) = colXor (mixCol x) (mixCol y) := by
  obtain ⟨a, b, c, d⟩ := x
  obtain ⟨a', b', c', d'⟩ := y
  obtain ⟨ha, hb, hc, hd⟩ := hx
  obtain ⟨ha', hb', hc', hd'⟩ := hy
  simp only [mixCol, colXor, Prod.mk.injEq]
  refine ⟨?_, ?_, ?_, ?_⟩
  · rw [mul2_xor ha ha', mul3_xor hb hb']
    ac_rfl
  · rw [mul2_xor hb hb', mul3_xor hc hc']
    ac_rfl
  · rw [mul2_xor hc hc', mul3_xor hd hd']
    ac_rfl
  · rw [mul3_xor ha ha', mul2_xor hd hd']
    ac_rfl

theorem invMixCol_xor {x y : Nat × Nat × Nat × Nat} (hx : colWf x) (hy : colWf y) :
    invMixCol (colXor x y) = colXor (invMixCol x) (invMixCol y) := by
  obtain ⟨a, b, c, d⟩ := x
  obtain ⟨a', b', c', d'⟩ := y
  obtain ⟨ha, hb, hc, hd⟩ := hx
  obtain ⟨ha', hb', hc', hd'⟩ := hy
  simp only [invMixCol, colXor, Prod.mk.injEq]
  refine ⟨?_, ?_, ?_, ?_⟩
  · rw [mul14_xor ha ha', mul11_xor hb hb', mul13_xor hc hc', mul9_xor hd hd']
    ac_rfl
  · rw [mul9_xor ha ha', mul14_xor hb hb', mul11_xor hc hc', mul13_xor hd hd']
    ac_rfl
  · rw [mul13_xor ha ha', mul9_xor hb hb', mul14_xor hc hc', mul11_xor hd hd']
    ac_rfl
  · rw [mul11_xor ha ha', mul13_xor hb hb', mul9_xor hc hc', mul14_xor hd hd']
    ac_rfl

theorem invMixCol_mixCol_b0 : ∀ b : Fin 256,
    invMixCol (mixCol (b.val, 0, 0, 0)) = (b.val, 0, 0, 0) := by decide

theorem invMixCol_mixCol_b1 : ∀ b : Fin 256,
    invMixCol (mixCol (0, b.val, 0, 0)) = (0, b.val, 0, 0) := by decide

theorem invMixCol_mixCol_b2 : ∀ b : Fin 256,
    invMixCol (mixCol (0, 0, b.val, 0)) = (0, 0, b.val, 0) := by decide

theorem invMixCol_mixCol_b3 : ∀ b : Fin 256,
    invMixCol (mixCol (0, 0, 0, b.val)) = (0, 0, 0, b.val) := by decide

theorem invMixCol_mixCol {a b c d : Nat}
    (ha : a < 256) (hb : b < 256) (hc : c < 256) (hd : d < 256) :
    invMixCol (mixCol (a, b, c, d)) = (a, b, c, d) := by
  have h0 : invMixCol (mixCol (a, 0, 0, 0)) = (a, 0, 0, 0) := by
    simpa using invMixCol_mixCol_b0 ⟨a, ha⟩
  have h1 : invMixCol (mixCol (0, b, 0, 0)) = (0, b, 0, 0) := by
    simpa using invMixCol_mixCol_b1 ⟨b, hb⟩
  have h2 : invMixCol (mixCol (0, 0, c, 0)) = (0, 0, c, 0) := by
    simpa using invMixCol_mixCol_b2 ⟨c, hc⟩
  have h3 : invMixCol (mixCol (0, 0, 0, d)) = (0, 0, 0, d) := by
    simpa using invMixCol_mixCol_b3 ⟨d, hd⟩
  have w0 : colWf (a, 0, 0, 0) := ⟨ha, by norm_num, by norm_num, by norm_num⟩
  have w1 : colWf (0, b, 0, 0) := ⟨by norm_num, hb, by norm_num, by norm_num⟩
  have w2 : colWf (0, 0, c, 0) := ⟨by norm_num, by norm_num, hc, by norm_num⟩
  have w3 : colWf (0, 0, 0, d) := ⟨by norm_num, by norm_num, by norm_num, hd⟩
  have key : ∀ x y : Nat × Nat × Nat × Nat, colWf x → colWf y →
      invMixCol (mixCol (colXor x y)) =
        colXor (invMixCol (mixCol x)) (invMixCol (mixCol y)) := by
    intro x y hx hy
    rw [mixCol_xor hx hy, invMixCol_xor (mixCol_wf hx) (mixCol_wf hy)]
  calc invMixCol (mixCol (a, b, c, d))
      = invMixCol (mixCol (colXor (a, 0, 0, 0)
          (colXor (0, b, 0, 0) (colXor (0, 0, c, 0) (0, 0, 0, d))))) := by
        simp [colXor]
    _ = colXor (invMixCol (mixCol (a, 0, 0, 0)))
          (colXor (invMixCol (mixCol (0, b, 0, 0)))
            (colXor (invMixCol (mixCol (0, 0, c, 0)))
              (invMixCol (mixCol (0, 0, 0, d))))) := by
        rw [key _ _ w0 (colXor_wf w1 (colXor_wf w2 w3)),
          key _ _ w1 (colXor_wf w2 w3), key _ _ w2 w3]
    _ = (a, b, c, d) := by
        rw [h0, h1, h2, h3]
        simp [colXor]

/-! ## AES-128 block cipher on 16-byte states (FIPS-197) -/

/-- The AES S-box. -/
def sbox : List Nat := [
  99, 124, 119, 123, 242, 107, 111, 197, 48, 1, 103, 43, 254, 215, 171, 118,
  202, 130, 201, 125, 250, 89, 71, 240, 173, 212, 162, 175, 156, 164, 114, 192,
  183, 253, 147, 38, 54, 63, 247, 204, 52, 165, 229, 241, 113, 216, 49, 21,
  4, 199, 35, 195, 24, 150, 5, 154, 7, 18, 128, 226, 235, 39, 178, 117,
  9, 131, 44, 26, 27, 110, 90, 160, 82, 59, 214, 179, 41, 227, 47, 132,
  83, 209, 0, 237, 32, 252, 177, 91, 106, 203, 190, 57, 74, 76, 88, 207,
  208, 239, 170, 251, 67, 77, 51, 133, 69, 249, 2, 127, 80, 60, 159, 168,
  81, 163, 64, 143, 146, 157, 56, 245, 188, 182, 218, 33, 16, 255, 243, 210,
  205, 12, 19, 236, 95, 151, 68, 23, 196, 167, 126, 61, 100, 93, 25, 115,
  96, 129, 79, 220, 34, 42, 144, 136, 70, 238, 184, 20, 222, 94, 11, 219,
  224, 50, 58, 10, 73, 6, 36, 92, 194, 211, 172, 98, 145, 149, 228, 121,
  231, 200, 55, 109, 141, 213, 78, 169, 108, 86, 244, 234, 101, 122, 174, 8,
  186, 120, 37, 46, 28, 166, 180, 198, 232, 221, 116, 31, 75, 189, 139, 138,
  112, 62, 181, 102, 72, 3, 246, 14, 97, 53, 87, 185, 134, 193, 29, 158,
  225, 248, 152, 17, 105, 217, 142, 148, 155, 30, 135, 233, 206, 85, 40, 223,
  140, 161, 137, 13, 191, 230, 66, 104, 65, 153, 45, 15, 176, 84, 187, 22]

/-- The inverse AES S-box. -/
def invSbox : List Nat := [
  82, 9, 106, 213, 48, 54, 165, 56, 191, 64, 163, 158, 129, 243, 215, 251,
  124, 227, 57, 130, 155, 47, 255, 135, 52, 142, 67, 68, 196, 222, 233, 203,
  84, 123, 148, 50, 166, 194, 35, 61, 238, 76, 149, 11, 66, 250, 195, 78,
  8, 46, 161, 102, 40, 217, 36, 178, 118, 91, 162, 73, 109, 139, 209, 37,
  114, 248, 246, 100, 134, 104, 152, 22, 212, 164, 92, 204, 93, 101, 182, 146,
  108, 112, 72, 80, 253, 237, 185, 218, 94, 21, 70, 87, 167, 141, 157, 132,
  144, 216, 171, 0, 140, 188, 211, 10, 247, 228, 88, 5, 184, 179, 69, 6,
  208, 44, 30, 143, 202, 63, 15, 2, 193, 175, 189, 3, 1, 19, 138, 107,
  58, 145, 17, 65, 79, 103, 220, 234, 151, 242, 207, 206, 240, 180, 230, 115,
  150, 172, 116, 34, 231, 173, 53, 133, 226, 249, 55, 232, 28, 117, 223, 110,
  71, 241, 26, 113, 29, 41, 197, 137, 111, 183, 98, 14, 170, 24, 190, 27,
  252, 86, 62, 75, 198, 210, 121, 32, 154, 219, 192, 254, 120, 205, 90, 244,
  31, 221, 168, 51, 136, 7, 199, 49, 177, 18, 16, 89, 39, 128, 236, 95,
  96, 81, 127, 169, 25, 181, 74, 13, 45, 229, 122, 159, 147, 201, 156, 239,
  160, 224, 59, 77, 174, 42, 245, 176, 200, 235, 187, 60, 131, 83, 153, 97,
  23, 43, 4, 126, 186, 119, 214, 38, 225, 105, 20, 99, 85, 33, 12, 125]

/-- S-box lookup of a byte. -/
def sboxAt (b : Nat) : Nat := sbox.getD b 0

/-- Inverse S-box lookup of a byte. -/
def invSboxAt (b : Nat) : Nat := invSbox.getD b 0

/-- All bytes of a list are below 256. -/
def bytesWf (s : List Nat) : Prop := ∀ x ∈ s, x < 256

/-- A well-formed 16-byte block. -/
def blockWf (s : List Nat) : Prop := s.length = 16 ∧ bytesWf s

theorem getD_all {α : Type} (P : α → Prop) :
    ∀ (l : List α) (n : Nat) (d : α), (∀ x ∈ l, P x) → P d → P (l.getD n d)
  | [], _, _, _, hd => by simpa [List.getD]
  | x :: _, 0, _, hl, _ => by simpa [List.getD] using hl x (by simp)
  | _ :: xs, n + 1, d, hl, hd => by
    simpa [List.getD] using getD_all P xs n d (fun y hy => hl y (by simp [hy])) hd

theorem sbox_all_lt : ∀ x ∈ sbox, x < 256 := by decide

theorem invSbox_all_lt : ∀ x ∈ invSbox, x < 256 := by decide

theorem sboxAt_lt (b : Nat) : sboxAt b < 256 :=
  getD_all (· < 256) sbox b 0 sbox_all_lt (by norm_num)

theorem invSboxAt_lt (b : Nat) : invSboxAt b < 256 :=
  getD_all (· < 256) invSbox b 0 invSbox_all_lt (by norm_num)

theorem invSboxAt_sboxAt_fin : ∀ b : Fin 256, invSboxAt (sboxAt b.val) = b.val := by decide

theorem invSboxAt_sboxAt {b : Nat} (h : b < 256) : invSboxAt (sboxAt b) = b := by
  simpa using invSboxAt_sboxAt_fin ⟨b, h⟩

/-- SubBytes. -/
def subBytes (s : List Nat) : List Nat := s.map sboxAt

/-- InvSubBytes. -/
def invSubBytes (s : List Nat) : List Nat := s.map invSboxAt

theorem invSubBytes_subBytes : ∀ {s : List Nat}, bytesWf s → invSubBytes (subBytes s) = s := by
  intro s
  induction s with
  | nil => intro _; rfl
  | cons x xs ih =>
    intro h
    have hx : x < 256 := h x (by simp)
    have hxs : bytesWf xs := fun y hy => h y (by simp [hy])
    simp only [subBytes, invSubBytes, List.map_cons] at *
    rw [invSboxAt_sboxAt hx]
    exact congrArg (x :: ·) (ih hxs)

theorem subBytes_wf {s : List Nat} (h : blockWf s) : blockWf (subBytes s) :=
  ⟨by simp [subBytes, h.1], by
    intro x hx
    simp only [subBytes, List.mem_map] at hx
    obtain ⟨y, _, rfl⟩ := hx
    exact sboxAt_lt y⟩

theorem invSubBytes_wf {s : List Nat} (h : blockWf s) : blockWf (invSubBytes s) :=
  ⟨by simp [invSubBytes, h.1], by
    intro x hx
    simp only [invSubBytes, List.mem_map] at hx
    obtain ⟨y, _, rfl⟩ := hx
    exact invSboxAt_lt y⟩

theorem length16_eq :
    ∀ (s : List Nat), s.length = 16 →
      ∃ a0 a1 a2 a3 a4 a5 a6 a7 a8 a9 a10 a11 a12 a13 a14 a15,
        s = [a0, a1, a2, a3, a4, a5, a6, a7, a8, a9, a10, a11, a12, a13, a14, a15]
  | [a0, a1, a2, a3, a4, a5, a6, a7, a8, a9, a10, a11, a12, a13, a14, a15], _ =>
    ⟨a0, a1, a2, a3, a4, a5, a6, a7, a8, a9, a10, a11, a12, a13, a14, a15, rfl⟩

/-- ShiftRows on a column-major 16-byte state (row r is rotated left by r). -/
def shiftRows : List Nat → List Nat
  | [a0, a1, a2, a3, a4, a5, a6, a7, a8, a9, a10, a11, a12, a13, a14, a15] =>
    [a0, a5, a10, a15, a4, a9, a14, a3, a8, a13, a2, a7, a12, a1, a6, a11]
  | s => s

/-- InvShiftRows (row r is rotated right by r). -/
def invShiftRows : List Nat → List Nat
  | [a0, a1, a2, a3, a4, a5, a6, a7, a8, a9, a10, a11, a12, a13, a14, a15] =>
    [a0, a13, a10, a7, a4, a1, a14, a11, a8, a5, a2, a15, a12, a9, a6, a3]
  | s => s

theorem invShiftRows_shiftRows {s : List Nat} (h : s.length = 16) :
    invShiftRows (shiftRows s) = s := by
  obtain ⟨a0, a1, a2, a3, a4, a5, a6, a7, a8, a9, a10, a11, a12, a13, a14, a15, rfl⟩ :=
    length16_eq s h
  rfl

theorem shiftRows_wf {s : List Nat} (h : blockWf s) : blockWf (shiftRows s) := by
  obtain ⟨a0, a1, a2, a3, a4, a5, a6, a7, a8, a9, a10, a11, a12, a13, a14, a15, rfl⟩ :=
    length16_eq s h.1
  have hb := h.2
  simp only [bytesWf, List.forall_mem_cons, List.not_mem_nil] at hb
  refine ⟨rfl, fun x hx => ?_⟩
  simp only [shiftRows, List.mem_cons, List.not_mem_nil, or_false] at hx
  rcases hx with rfl | rfl | rfl | rfl | rfl | rfl | rfl | rfl |
    rfl | rfl | rfl | rfl | rfl | rfl | rfl | rfl <;> tauto

/-- The four bytes of one column, as a list. -/
def colToList : Nat × Nat × Nat × Nat → List Nat
  | (a, b, c, d) => [a, b, c, d]

/-- Reassemble a 16-byte state from four columns. -/
def listOfCols (c0 c1 c2 c3 : Nat × Nat × Nat × Nat) : List Nat :=
  colToList c0 ++ colToList c1 ++ colToList c2 ++ colToList c3

/-- MixColumns on a column-major 16-byte state. -/
def mixColumns : List Nat → List Nat
  | [a0, a1, a2, a3, a4, a5, a6, a7, a8, a9, a10, a11, a12, a13, a14, a15] =>
    listOfCols (mixCol (a0, a1, a2, a3)) (mixCol (a4, a5, a6, a7))
      (mixCol (a8, a9, a10, a11)) (mixCol (a12, a13, a14, a15))
  | s => s

/-- InvMixColumns on a column-major 16-byte state. -/
def invMixColumns : List Nat → List Nat
  | [a0, a1, a2, a3, a4, a5, a6, a7, a8, a9, a10, a11, a12, a13, a14, a15] =>
    listOfCols (invMixCol (a0, a1, a2, a3)) (invMixCol (a4, a5, a6, a7))
      (invMixCol (a8, a9, a10, a11)) (invMixCol (a12, a13, a14, a15))
  | s => s

theorem invMixColumns_listOfCols (c0 c1 c2 c3 : Nat × Nat × Nat × Nat) :
    invMixColumns (listOfCols c0 c1 c2 c3) =
      listOfCols (invMixCol c0) (invMixCol c1) (invMixCol c2) (invMixCol c3) := by
  obtain ⟨a0, a1, a2, a3⟩ := c0
  obtain ⟨b0, b1, b2, b3⟩ := c1
  obtain ⟨e0, e1, e2, e3⟩ := c2
  obtain ⟨d0, d1, d2, d3⟩ := c3
  rfl

theorem invMixColumns_mixColumns {s : List Nat} (h : blockWf s) :
    invMixColumns (mixColumns s) = s := by
  obtain ⟨a0, a1, a2, a3, a4, a5, a6, a7, a8, a9, a10, a11, a12, a13, a14, a15, rfl⟩ :=
    length16_eq s h.1
  have hb := h.2
  simp only [bytesWf, List.forall_mem_cons, List.not_mem_nil] at hb
  have e1 : mixColumns [a0, a1, a2, a3, a4, a5, a6, a7, a8, a9, a10, a11, a12, a13, a14, a15] =
      listOfCols (mixCol (a0, a1, a2, a3)) (mixCol (a4, a5, a6, a7))
        (mixCol (a8, a9, a10, a11)) (mixCol (a12, a13, a14, a15)) := rfl
  rw [e1, invMixColumns_listOfCols]
  rw [invMixCol_mixCol hb.1 hb.2.1 hb.2.2.1 hb.2.2.2.1,
    invMixCol_mixCol hb.2.2.2.2.1 hb.2.2.2.2.2.1 hb.2.2.2.2.2.2.1 hb.2.2.2.2.2.2.2.1]
  rw [invMixCol_mixCol hb.2.2.2.2.2.2.2.2.1 hb.2.2.2.2.2.2.2.2.2.1
    hb.2.2.2.2.2.2.2.2.2.2.1 hb.2.2.2.2.2.2.2.2.2.2.2.1]
  rw [invMixCol_mixCol hb.2.2.2.2.2.2.2.2.2.2.2.2.1 hb.2.2.2.2.2.2.2.2.2.2.2.2.2.1
    hb.2.2.2.2.2.2.2.2.2.2.2.2.2.2.1 hb.2.2.2.2.2.2.2.2.2.2.2.2.2.2.2.1]
  rfl

theorem listOfCols_wf {c0 c1 c2 c3 : Nat × Nat × Nat × Nat}
    (h0 : colWf c0) (h1 : colWf c1) (h2 : colWf c2) (h3 : colWf c3) :
    blockWf (listOfCols c0 c1 c2 c3) := by
  obtain ⟨a0, a1, a2, a3⟩ := c0
  obtain ⟨b0, b1, b2, b3⟩ := c1
  obtain ⟨e0, e1, e2, e3⟩ := c2
  obtain ⟨d0, d1, d2, d3⟩ := c3
  obtain ⟨x0, x1, x2, x3⟩ := h0
  obtain ⟨y0, y1, y2, y3⟩ := h1
  obtain ⟨z0, z1, z2, z3⟩ := h2
  obtain ⟨w0, w1, w2, w3⟩ := h3
  refine ⟨rfl, ?_⟩
  simp only [listOfCols, colToList, List.append_assoc, List.cons_append, List.nil_append,
    bytesWf, List.forall_mem_cons, List.forall_mem_nil, and_true]
  tauto

theorem mixColumns_wf {s : List Nat} (h : blockWf s) : blockWf (mixColumns s) := by
  obtain ⟨a0, a1, a2, a3, a4, a5, a6, a7, a8, a9, a10, a11, a12, a13, a14, a15, rfl⟩ :=
    length16_eq s h.1
  have hb := h.2
  simp only [bytesWf, List.forall_mem_cons, List.not_mem_nil] at hb
  refine listOfCols_wf (mixCol_wf ?_) (mixCol_wf ?_) (mixCol_wf ?_) (mixCol_wf ?_) <;>
    exact ⟨by tauto, by tauto, by tauto, by tauto⟩

/-- AddRoundKey: bytewise xor of the state with a round key. -/
def addRoundKey (k s : List Nat) : List Nat := List.zipWith (· ^^^ ·) s k

theorem addRoundKey_addRoundKey :
    ∀ (k s : List Nat), s.length = k.length → addRoundKey k (addRoundKey k s) = s := by
  intro k
  induction k with
  | nil =>
    intro s h
    cases s with
    | nil => rfl
    | cons x xs => simp at h
  | cons kh kt ih =>
    intro s h
    cases s with
    | nil => simp at h
    | cons sh st =>
      simp only [addRoundKey, List.zipWith_cons_cons] at *
      rw [Nat.xor_cancel_right]
      exact congrArg (sh :: ·) (ih st (by simpa using h))

theorem zipWith_xor_bytesWf :
    ∀ (s k : List Nat), bytesWf s → bytesWf k → bytesWf (List.zipWith (· ^^^ ·) s k) := by
  intro s
  induction s with
  | nil => intro k _ _; simp [bytesWf]
  | cons sh st ih =>
    intro k hs hk
    cases k with
    | nil => simp [bytesWf]
    | cons kh kt =>
      simp only [List.zipWith_cons_cons]
      intro x hx
      simp only [List.mem_cons] at hx
      rcases hx with rfl | hx
      · exact xor_lt_256 (hs sh (by simp)) (hk kh (by simp))
      · exact ih kt (fun y hy => hs y (by simp [hy])) (fun y hy => hk y (by simp [hy])) x hx

theorem addRoundKey_wf {k s : List Nat} (hk : blockWf k) (hs : blockWf s) :
    blockWf (addRoundKey k s) :=
  ⟨by simp [addRoundKey, hk.1, hs.1], zipWith_xor_bytesWf s k hs.2 hk.2⟩

theorem addRoundKey_length {k s : List Nat} (hk : k.length = 16) (hs : s.length = 16) :
    (addRoundKey k s).length = 16 := by
  simp [addRoundKey, hk, hs]

/-! ## AES-128 key schedule and full cipher -/

/-- Round constants of the key expansion. -/
def rcon : List Nat := [1, 2, 4, 8, 16, 32, 64, 128, 27, 54]

def zeroWord : Nat × Nat × Nat × Nat := (0, 0, 0, 0)

/-- RotWord followed by SubWord, with the round constant xored into byte 0. -/
def subRotWord (rc : Nat) : Nat × Nat × Nat × Nat → Nat × Nat × Nat × Nat
  | (a, b, c, d) => (sboxAt b ^^^ rc, sboxAt c, sboxAt d, sboxAt a)

/-- One key-expansion step: append word `w(i+4)` to the list of words. -/
def expandStep (ws : List (Nat × Nat × Nat × Nat)) (i : Nat) : List (Nat × Nat × Nat × Nat) :=
  let j := i + 4
  let prev := ws.getD (j - 1) zeroWord
  let t := if j % 4 == 0 then subRotWord (rcon.getD (j / 4 - 1) 0) prev else prev
  ws ++ [colXor (ws.getD (j - 4) zeroWord) t]

/-- The 44 words of the AES-128 key schedule. -/
def keyWords (key : List Nat) : List (Nat × Nat × Nat × Nat) :=
  (List.range 40).foldl expandStep
    [(key.getD 0 0, key.getD 1 0, key.getD 2 0, key.getD 3 0),
     (key.getD 4 0, key.getD 5 0, key.getD 6 0, key.getD 7 0),
     (key.getD 8 0, key.getD 9 0, key.getD 10 0, key.getD 11 0),
     (key.getD 12 0, key.getD 13 0, key.getD 14 0, key.getD 15 0)]

/-- The 16-byte round key for round `r`. -/
def roundKey (key : List Nat) (r : Nat) : List Nat :=
  listOfCols ((keyWords key).getD (4 * r) zeroWord) ((keyWords key).getD (4 * r + 1) zeroWord)
    ((keyWords key).getD (4 * r + 2) zeroWord) ((keyWords key).getD (4 * r + 3) zeroWord)

theorem foldl_preserve {α β : Type} {P : α → Prop} {f : α → β → α}
    (h : ∀ a b, P a → P (f a b)) :
    ∀ (l : List β) (a : α), P a → P (l.foldl f a) := by
  intro l
  induction l with
  | nil => intro a ha; simpa using ha
  | cons x xs ih => intro a ha; simpa using ih (f a x) (h a x ha)

theorem rcon_all_lt : ∀ x ∈ rcon, x < 256 := by decide

theorem zeroWord_wf : colWf zeroWord := by
  unfold colWf zeroWord
  norm_num

theorem subRotWord_wf {rc : Nat} (hrc : rc < 256) {w : Nat × Nat × Nat × Nat} :
    colWf (subRotWord rc w) := by
  obtain ⟨a, b, c, d⟩ := w
  exact ⟨xor_lt_256 (sboxAt_lt b) hrc, sboxAt_lt c, sboxAt_lt d, sboxAt_lt a⟩

theorem keyWords_wf {key : List Nat} (hk : bytesWf key) : ∀ w ∈ keyWords key, colWf w := by
  unfold keyWords
  apply foldl_preserve (P := fun ws => ∀ w ∈ ws, colWf w)
  · intro ws i hws
    intro w hw
    simp only [expandStep, List.mem_append, List.mem_singleton] at hw
    rcases hw with hw | rfl
    · exact hws w hw
    · apply colXor_wf (getD_all colWf ws _ zeroWord hws zeroWord_wf)
      split
      · exact subRotWord_wf (getD_all (· < 256) rcon _ 0 rcon_all_lt (by norm_num))
      · exact getD_all colWf ws _ zeroWord hws zeroWord_wf
  · intro w hw
    have hbyte : ∀ n : Nat, key.getD n 0 < 256 :=
      fun n => getD_all (· < 256) key n 0 hk (by norm_num)
    simp only [List.mem_cons, List.not_mem_nil, or_false] at hw
    rcases hw with rfl | rfl | rfl | rfl <;>
      exact ⟨hbyte _, hbyte _, hbyte _, hbyte _⟩

theorem roundKey_wf {key : List Nat} (hk : bytesWf key) (r : Nat) :
    blockWf (roundKey key r) := by
  unfold roundKey
  have h := keyWords_wf hk
  exact listOfCols_wf (getD_all colWf _ _ zeroWord h zeroWord_wf)
    (getD_all colWf _ _ zeroWord h zeroWord_wf)
    (getD_all colWf _ _ zeroWord h zeroWord_wf)
    (getD_all colWf _ _ zeroWord h zeroWord_wf)

/-- One full middle encryption round. -/
def encRound (k s : List Nat) : List Nat := addRoundKey k (mixColumns (shiftRows (subBytes s)))

/-- One full middle decryption round. -/
def decRound (k s : List Nat) : List Nat :=
  invSubBytes (invShiftRows (invMixColumns (addRoundKey k s)))

/-- The nine middle encryption rounds. -/
def encRounds (key : List Nat) (rs : List Nat) (s : List Nat) : List Nat :=
  rs.foldl (fun s r => encRound (roundKey key r) s) s

/-- The nine middle decryption rounds. -/
def decRounds (key : List Nat) (rs : List Nat) (s : List Nat) : List Nat :=
  rs.foldl (fun s r => decRound (roundKey key r) s) s

/-- AES-128 encryption of one 16-byte block. -/
def aesEncrypt (key msg : List Nat) : List Nat :=
  addRoundKey (roundKey key 10)
    (shiftRows (subBytes
      (encRounds key [1, 2, 3, 4, 5, 6, 7, 8, 9] (addRoundKey (roundKey key 0) msg))))

/-- AES-128 decryption of one 16-byte block. -/
def aesDecrypt (key ct : List Nat) : List Nat :=
  addRoundKey (roundKey key 0)
    (decRounds key (List.reverse [1, 2, 3, 4, 5, 6, 7, 8, 9])
      (invSubBytes (invShiftRows (addRoundKey (roundKey key 10) ct))))

theorem encRound_wf {k s : List Nat} (hk : blockWf k) (hs : blockWf s) :
    blockWf (encRound k s) :=
  addRoundKey_wf hk (mixColumns_wf (shiftRows_wf (subBytes_wf hs)))

theorem decRound_encRound {k s : List Nat} (hk : blockWf k) (hs : blockWf s) :
    decRound k (encRound k s) = s := by
  unfold decRound encRound
  have h1 : blockWf (mixColumns (shiftRows (subBytes s))) :=
    mixColumns_wf (shiftRows_wf (subBytes_wf hs))
  rw [addRoundKey_addRoundKey k _ (by rw [h1.1, hk.1])]
  rw [invMixColumns_mixColumns (shiftRows_wf (subBytes_wf hs))]
  rw [invShiftRows_shiftRows (subBytes_wf hs).1]
  rw [invSubBytes_subBytes hs.2]

theorem encRounds_wf {key : List Nat} (hk : bytesWf key) (rs : List Nat) {s : List Nat}
    (hs : blockWf s) : blockWf (encRounds key rs s) := by
  unfold encRounds
  exact foldl_preserve (fun a r ha => encRound_wf (roundKey_wf hk r) ha) rs s hs

theorem decRounds_encRounds {key : List Nat} (hk : bytesWf key) :
    ∀ (rs : List Nat) {s : List Nat}, blockWf s →
      decRounds key rs.reverse (encRounds key rs s) = s := by
  intro rs
  induction rs using List.reverseRecOn with
  | nil => intro s _; rfl
  | append_singleton rs r ih =>
    intro s hs
    have he : encRounds key (rs ++ [r]) s =
        encRound (roundKey key r) (encRounds key rs s) := by
      simp [encRounds, List.foldl_append]
    have hd : ∀ t, decRounds key ((rs ++ [r]).reverse) t =
        decRounds key rs.reverse (decRound (roundKey key r) t) := by
      intro t
      simp [decRounds, List.reverse_append]
    rw [he, hd, decRound_encRound (roundKey_wf hk r) (encRounds_wf hk rs hs)]
    exact ih hs

/-- AES-128 decryption inverts AES-128 encryption on well-formed blocks. -/
theorem aesDecrypt_aesEncrypt {key msg : List Nat} (hkey : bytesWf key)
    (hmsg : blockWf msg) : aesDecrypt key (aesEncrypt key msg) = msg := by
  unfold aesEncrypt aesDecrypt
  have h0 : blockWf (addRoundKey (roundKey key 0) msg) :=
    addRoundKey_wf (roundKey_wf hkey 0) hmsg
  have h9 : blockWf (encRounds key [1, 2, 3, 4, 5, 6, 7, 8, 9]
      (addRoundKey (roundKey key 0) msg)) :=
    encRounds_wf hkey _ h0
  rw [addRoundKey_addRoundKey (roundKey key 10) _
    (by rw [(shiftRows_wf (subBytes_wf h9)).1, (roundKey_wf hkey 10).1])]
  rw [invShiftRows_shiftRows (subBytes_wf h9).1, invSubBytes_subBytes h9.2]
  rw [decRounds_encRounds hkey [1, 2, 3, 4, 5, 6, 7, 8, 9] h0]
  exact addRoundKey_addRoundKey (roundKey key 0) msg
    (by rw [hmsg.1, (roundKey_wf hkey 0).1])

theorem aesEncrypt_wf {key msg : List Nat} (hkey : bytesWf key) (hmsg : blockWf msg) :
    blockWf (aesEncrypt key msg) :=
  addRoundKey_wf (roundKey_wf hkey 10)
    (shiftRows_wf (subBytes_wf (encRounds_wf hkey _
      (addRoundKey_wf (roundKey_wf hkey 0) hmsg))))

/-- FIPS-197 appendix C.1 test vector, pinning the cipher model to real AES-128. -/
theorem aesEncrypt_fips197 :
    aesEncrypt [0, 1, 2, 3, 4, 5, 6, 7, 8, 9, 10, 11, 12, 13, 14, 15]
      [0x00, 0x11, 0x22, 0x33, 0x44, 0x55, 0x66, 0x77,
       0x88, 0x99, 0xaa, 0xbb, 0xcc, 0xdd, 0xee, 0xff] =
      [0x69, 0xc4, 0xe0, 0xd8, 0x6a, 0x7b, 0x04, 0x30,
       0xd8, 0xcd, 0xb7, 0x80, 0x70, 0xb4, 0xc5, 0x5a] := by
  decide

/-! ## config.py constants -/

/-- `AES_KEY = bytes.fromhex("34522a5b7a6e492c08090a9d8d2a23f8")`. -/
def AES_KEY : List Nat :=
  [0x34, 0x52, 0x2a, 0x5b, 0x7a, 0x6e, 0x49, 0x2c,
   0x08, 0x09, 0x0a, 0x9d, 0x8d, 0x2a, 0x23, 0xf8]

/-- `IDLE_MESSAGE = bytes.fromhex("e1055f54d880f49c2ce547267f930bf2")`. -/
def IDLE_MESSAGE : List Nat :=
  [0xe1, 0x05, 0x5f, 0x54, 0xd8, 0x80, 0xf4, 0x9c,
   0x2c, 0xe5, 0x47, 0x26, 0x7f, 0x93, 0x0b, 0xf2]

/-- The marker bytes of `b"CTL"` (the CONTROL marker constant of config.py). -/
def CTL_MARKER : List Nat := [0x43, 0x54, 0x4c]

/-- `DEFAULT_SPEED = 0x50`. -/
def DEFAULT_SPEED : Nat := 0x50

/-- `DEFAULT_SPEED_PROFILES["low"]`. -/
def SPEED_LOW : Nat := 0x16

/-- `DEFAULT_SPEED_PROFILES["medium"]`. -/
def SPEED_MEDIUM : Nat := 0x32

/-- `DEFAULT_SPEED_PROFILES["high"]`. -/
def SPEED_HIGH : Nat := 0x48

/-- `DEFAULT_SPEED_PROFILES["max"]`. -/
def SPEED_MAX : Nat := 0x64

/-- `JOYCON_DEADZONE = 0.1`. -/
def JOYCON_DEADZONE : ℚ := mkRat 1 10

/-! ## encryption.py — MessageEncryptor (AES-128 ECB, one block per call) -/

/-- `MessageEncryptor.encrypt`: `none` models the ValueError raised when the
message is not exactly 16 bytes; otherwise one AES-128-ECB block encryption. -/
def MessageEncryptor_encrypt (key msg : List Nat) : Option (List Nat) :=
  if msg.length ≠ 16 then Option.none else some (aesEncrypt key msg)

/-- `MessageEncryptor.decrypt`: `none` models the ValueError raised when the
ciphertext is not exactly 16 bytes; otherwise one AES-128-ECB block decryption.
(The inner `try/except` returning `None` fires only if the AES library itself
fails, which the total cipher model never does.) -/
def MessageEncryptor_decrypt (key ct : List Nat) : Option (List Nat) :=
  if ct.length ≠ 16 then Option.none else some (aesDecrypt key ct)

/-! ## Python base64 (`base64.b64encode` / `base64.b64decode`) -/

/-- The standard base64 alphabet. -/
def b64chars : List Char :=
  "ABCDEFGHIJKLMNOPQRSTUVWXYZabcdefghijklmnopqrstuvwxyz0123456789+/".toList

/-- The alphabet character with the given 6-bit value. -/
def b64char (n : Nat) : Char := b64chars.getD n 'A'

/-- Index of a character in a list of characters. -/
def charIdx (c : Char) : List Char → Option Nat
  | [] => Option.none
  | x :: xs => if x = c then some 0 else (charIdx c xs).map (· + 1)

/-- Whether a character belongs to the base64 alphabet. -/
def b64isAlpha (c : Char) : Bool := (charIdx c b64chars).isSome

/-- The 6-bit value of an alphabet character (0 for non-alphabet characters). -/
def b64valD (c : Char) : Nat := (charIdx c b64chars).getD 0

/-- `base64.b64encode` on a byte string, producing the character stream. -/
def b64encodeBytes : List Nat → List Char
  | b0 :: b1 :: b2 :: rest =>
    b64char (b0 / 4) :: b64char (b0 % 4 * 16 + b1 / 16) ::
      b64char (b1 % 16 * 4 + b2 / 64) :: b64char (b2 % 64) :: b64encodeBytes rest
  | [b0, b1] =>
    [b64char (b0 / 4), b64char (b0 % 4 * 16 + b1 / 16), b64char (b1 % 16 * 4), '=']
  | [b0] => [b64char (b0 / 4), b64char (b0 % 4 * 16), '=', '=']
  | [] => []

/-- `base64.b64encode(...).decode("utf-8")`: the stored string form. -/
def b64encode (m : List Nat) : String := String.mk (b64encodeBytes m)

/-- Decode base64 quartets; `none` models `binascii.Error` (bad padding). -/
def b64decodeGroups : List Char → Option (List Nat)
  | [] => some []
  | c0 :: c1 :: c2 :: c3 :: rest =>
    if b64isAlpha c0 && b64isAlpha c1 then
      if c2 = '=' then
        if c3 = '=' && rest.isEmpty then
          some [b64valD c0 * 4 + b64valD c1 / 16]
        else Option.none
      else if b64isAlpha c2 then
        if c3 = '=' then
          if rest.isEmpty then
            some [b64valD c0 * 4 + b64valD c1 / 16, b64valD c1 % 16 * 16 + b64valD c2 / 4]
          else Option.none
        else if b64isAlpha c3 then
          (b64decodeGroups rest).map
            (fun tl => (b64valD c0 * 4 + b64valD c1 / 16) ::
              (b64valD c1 % 16 * 16 + b64valD c2 / 4) ::
              (b64valD c2 % 4 * 64 + b64valD c3) :: tl)
        else Option.none
      else Option.none
    else Option.none
  | _ => Option.none

/-- `base64.b64decode` on a string: characters outside the alphabet and `=` are
discarded (the non-validating mode used by the library), then quartets are
decoded; `none` models the `binascii.Error` raised on bad padding. -/
def b64decode (s : String) : Option (List Nat) :=
  b64decodeGroups (s.toList.filter (fun c => b64isAlpha c || c = '='))

theorem b64chars_alpha : ∀ c ∈ b64chars, b64isAlpha c = true := by decide

theorem b64isAlpha_b64char (n : Nat) : b64isAlpha (b64char n) = true :=
  getD_all (fun c => b64isAlpha c = true) b64chars n 'A' b64chars_alpha (by decide)

theorem b64char_ne_pad_fin : ∀ v : Fin 64, b64char v.val ≠ '=' := by decide

theorem b64char_ne_pad {v : Nat} (h : v < 64) : b64char v ≠ '=' := b64char_ne_pad_fin ⟨v, h⟩

theorem b64valD_b64char_fin : ∀ v : Fin 64, b64valD (b64char v.val) = v.val := by decide

theorem b64valD_b64char {v : Nat} (h : v < 64) : b64valD (b64char v) = v := by
  simpa using b64valD_b64char_fin ⟨v, h⟩

theorem b64encodeBytes_mem :
    ∀ (m : List Nat) (c : Char), c ∈ b64encodeBytes m → b64isAlpha c = true ∨ c = '='
  | [], c, h => by simp [b64encodeBytes] at h
  | [b0], c, h => by
    simp only [b64encodeBytes, List.mem_cons, List.not_mem_nil, or_false] at h
    rcases h with rfl | rfl | rfl | rfl
    · exact Or.inl (b64isAlpha_b64char _)
    · exact Or.inl (b64isAlpha_b64char _)
    · exact Or.inr rfl
    · exact Or.inr rfl
  | [b0, b1], c, h => by
    simp only [b64encodeBytes, List.mem_cons, List.not_mem_nil, or_false] at h
    rcases h with rfl | rfl | rfl | rfl
    · exact Or.inl (b64isAlpha_b64char _)
    · exact Or.inl (b64isAlpha_b64char _)
    · exact Or.inl (b64isAlpha_b64char _)
    · exact Or.inr rfl
  | b0 :: b1 :: b2 :: (rest : List Nat), c, h => by
    simp only [b64encodeBytes, List.mem_cons] at h
    rcases h with rfl | rfl | rfl | rfl | h
    · exact Or.inl (b64isAlpha_b64char _)
    · exact Or.inl (b64isAlpha_b64char _)
    · exact Or.inl (b64isAlpha_b64char _)
    · exact Or.inl (b64isAlpha_b64char _)
    · exact b64encodeBytes_mem rest c h

theorem b64strip_encodeBytes (m : List Nat) :
    (b64encodeBytes m).filter (fun c => b64isAlpha c || c = '=') = b64encodeBytes m := by
  apply List.filter_eq_self.mpr
  intro c hc
  rcases b64encodeBytes_mem m c hc with h | rfl
  · simp [h]
  · simp

theorem b64decodeGroups_encodeBytes :
    ∀ (m : List Nat), bytesWf m → b64decodeGroups (b64encodeBytes m) = some m
  | [], _ => rfl
  | [b0], h => by
    have hb0 : b0 < 256 := h b0 (by simp)
    have h0 : b64valD (b64char (b0 / 4)) = b0 / 4 := b64valD_b64char (by omega)
    have h1 : b64valD (b64char (b0 % 4 * 16)) = b0 % 4 * 16 := b64valD_b64char (by omega)
    simp [b64encodeBytes, b64decodeGroups, b64isAlpha_b64char, h0, h1]
    omega
  | [b0, b1], h => by
    have hb0 : b0 < 256 := h b0 (by simp)
    have hb1 : b1 < 256 := h b1 (by simp)
    have h0 : b64valD (b64char (b0 / 4)) = b0 / 4 := b64valD_b64char (by omega)
    have h1 : b64valD (b64char (b0 % 4 * 16 + b1 / 16)) = b0 % 4 * 16 + b1 / 16 :=
      b64valD_b64char (by omega)
    have h2 : b64valD (b64char (b1 % 16 * 4)) = b1 % 16 * 4 := b64valD_b64char (by omega)
    have hne2 : b64char (b0 % 4 * 16 + b1 / 16) ≠ '=' := b64char_ne_pad (by omega)
    have hne3 : b64char (b1 % 16 * 4) ≠ '=' := b64char_ne_pad (by omega)
    have e0 : b0 / 4 * 4 + (b0 % 4 * 16 + b1 / 16) / 16 = b0 := by omega
    simp [b64encodeBytes, b64decodeGroups, b64isAlpha_b64char, h0, h1, h2, hne2, hne3, e0]
    omega
  | b0 :: b1 :: b2 :: (rest : List Nat), h => by
    have hb0 : b0 < 256 := h b0 (by simp)
    have hb1 : b1 < 256 := h b1 (by simp)
    have hb2 : b2 < 256 := h b2 (by simp)
    have hrest : bytesWf rest := fun x hx => h x (by simp [hx])
    have h0 : b64valD (b64char (b0 / 4)) = b0 / 4 := b64valD_b64char (by omega)
    have h1 : b64valD (b64char (b0 % 4 * 16 + b1 / 16)) = b0 % 4 * 16 + b1 / 16 :=
      b64valD_b64char (by omega)
    have h2 : b64valD (b64char (b1 % 16 * 4 + b2 / 64)) = b1 % 16 * 4 + b2 / 64 :=
      b64valD_b64char (by omega)
    have h3 : b64valD (b64char (b2 % 64)) = b2 % 64 := b64valD_b64char (by omega)
    have hne2 : b64char (b1 % 16 * 4 + b2 / 64) ≠ '=' := b64char_ne_pad (by omega)
    have hne3 : b64char (b2 % 64) ≠ '=' := b64char_ne_pad (by omega)
    simp [b64encodeBytes, b64decodeGroups, b64isAlpha_b64char, h0, h1, h2, h3, hne2, hne3,
      b64decodeGroups_encodeBytes rest hrest]
    omega

theorem b64decode_b64encode {m : List Nat} (h : bytesWf m) : b64decode (b64encode m) = some m := by
  unfold b64decode b64encode
  have ht : (String.mk (b64encodeBytes m)).toList = b64encodeBytes m := rfl
  rw [ht, b64strip_encodeBytes]
  exact b64decodeGroups_encodeBytes m h

theorem b64encodeBytes_ne_nil : ∀ (m : List Nat), m ≠ [] → b64encodeBytes m ≠ []
  | [], h => absurd rfl h
  | [_], _ => by simp [b64encodeBytes]
  | [_, _], _ => by simp [b64encodeBytes]
  | _ :: _ :: _ :: _, _ => by simp [b64encodeBytes]

theorem b64encode_ne_empty {m : List Nat} (h : m ≠ []) : b64encode m ≠ "" := by
  intro he
  have hd : b64encodeBytes m = [] := congrArg String.data he
  exact b64encodeBytes_ne_nil m h hd

/-! ## shell_motorsport.py — control frames and the precomputed command table -/

/-- The 16-byte plaintext frame assembled by `_create_message`: byte 0
reserved, bytes 1-3 the CTL marker, bytes 4-7 the movement flags, byte 8
reserved, byte 9 the speed, bytes 10-15 zero padding. -/
def controlFrame (forward backward left right speed : Nat) : List Nat :=
  0 :: CTL_MARKER ++ [forward, backward, left, right, 0, speed, 0, 0, 0, 0, 0, 0]

/-- `_create_message`: validates the flags and the speed byte (`none` models
the ValueError), then builds the plaintext frame and encrypts it. -/
def create_message (forward backward left right speed : Nat) : Option (List Nat) :=
  if (forward ≠ 0 ∧ forward ≠ 1) ∨ (backward ≠ 0 ∧ backward ≠ 1) then Option.none
  else if (left ≠ 0 ∧ left ≠ 1) ∨ (right ≠ 0 ∧ right ≠ 1) then Option.none
  else if ¬ speed ≤ 0xFF then Option.none
  else MessageEncryptor_encrypt AES_KEY (controlFrame forward backward left right speed)

/-- The canonical command key `f"{forward}{backward}{left}{right}{speed}"`. -/
def stateKey (forward backward left right speed : Nat) : String :=
  Nat.repr forward ++ Nat.repr backward ++ Nat.repr left ++ Nat.repr right ++ Nat.repr speed

/-- Python dict lookup (`dict.get`) on an insertion-ordered association list. -/
def dictGet (d : List (String × String)) (k : String) : Option String :=
  (d.find? (fun p => p.1 == k)).map (fun p => p.2)

/-- Python dict item assignment: overwrite in place, or append a new entry. -/
def dictInsert (d : List (String × String)) (k v : String) : List (String × String) :=
  if d.any (fun p => p.1 == k) then d.map (fun p => if p.1 == k then (k, v) else p)
  else d ++ [(k, v)]

/-- The table state of a `ShellMotorsportCar`: the in-memory `command_list`
dict and the persisted commands file. -/
structure CarState where
  commandList : List (String × String)
  commandsFile : List (String × String)
deriving DecidableEq

/-- `retrieve_precomputed_message`, with the instance state passed and returned
explicitly; `none` in the first component models a propagated ValueError.  The
method never assigns to `command_list` and never saves the commands file, which
the model makes visible by returning the state it was given. -/
def retrieve_precomputed_message (st : CarState) (forward backward left right speed : Nat) :
    Option (List Nat) × CarState :=
  match dictGet st.commandList (stateKey forward backward left right speed) with
  | some enc =>
    if enc = "" then (create_message forward backward left right speed, st)
    else
      match b64decode enc with
      | some m => (some m, st)
      | Option.none => (some IDLE_MESSAGE, st)
  | Option.none => (create_message forward backward left right speed, st)

/-- `speed_values` of `precompute_messages`. -/
def speed_values : List Nat := [0x16, 0x32, 0x48, 0x64]

/-- The 64 `(forward, backward, left, right, speed)` tuples visited by the
nested loops of `precompute_messages`, in loop order. -/
def precomputeCombos : List (Nat × Nat × Nat × Nat × Nat) :=
  [0, 1].flatMap fun forward => [0, 1].flatMap fun backward =>
    [0, 1].flatMap fun left => [0, 1].flatMap fun right =>
      speed_values.map fun speed => (forward, backward, left, right, speed)

/-- The key written for one loop combination. -/
def comboKey (c : Nat × Nat × Nat × Nat × Nat) : String :=
  stateKey c.1 c.2.1 c.2.2.1 c.2.2.2.1 c.2.2.2.2

/-- The base64-encoded message stored for one loop combination
(`_create_message` always succeeds on the loop values, so the `getD` that
discharges the `Option` is never exercised). -/
def storedValue (c : Nat × Nat × Nat × Nat × Nat) : String :=
  b64encode ((create_message c.1 c.2.1 c.2.2.1 c.2.2.2.1 c.2.2.2.2).getD [])

/-- `precompute_messages`: computes and stores all 64 encrypted messages in
`command_list`, then persists the table (`_save_commands`). -/
def precompute_messages (st : CarState) : CarState :=
  let cl := precomputeCombos.foldl (fun acc c => dictInsert acc (comboKey c) (storedValue c))
    st.commandList
  { commandList := cl, commandsFile := cl }

theorem dictInsert_fresh {d : List (String × String)} {k v : String}
    (h : ∀ q ∈ d, q.1 ≠ k) : dictInsert d k v = d ++ [(k, v)] := by
  have hany : d.any (fun p => p.1 == k) = false := by
    simp only [List.any_eq_false]
    intro q hq
    simpa using h q hq
  simp [dictInsert, hany]

theorem foldl_dictInsert_fresh :
    ∀ (ps : List (String × String)) (d : List (String × String)),
      (∀ p ∈ ps, ∀ q ∈ d, q.1 ≠ p.1) → (ps.map (fun p => p.1)).Nodup →
      ps.foldl (fun acc p => dictInsert acc p.1 p.2) d = d ++ ps
  | [], d, _, _ => by simp
  | p :: ps, d, hfresh, hnodup => by
    have h1 : dictInsert d p.1 p.2 = d ++ [p] := by
      rw [dictInsert_fresh (fun q hq => hfresh p (by simp) q hq)]
    have hnot : p.1 ∉ ps.map (fun q => q.1) := by
      have := hnodup
      simp only [List.map_cons, List.nodup_cons] at this
      exact this.1
    have h2 : ∀ p' ∈ ps, ∀ q ∈ d ++ [p], q.1 ≠ p'.1 := by
      intro p' hp' q hq
      rcases List.mem_append.mp hq with hq | hq
      · exact hfresh p' (by simp [hp']) q hq
      · have : q = p := by simpa using hq
        subst this
        intro he
        exact hnot (by
          rw [he]
          exact List.mem_map.mpr ⟨p', hp', rfl⟩)
    have h3 : (ps.map (fun q => q.1)).Nodup := by
      have := hnodup
      simp only [List.map_cons, List.nodup_cons] at this
      exact this.2
    calc (p :: ps).foldl (fun acc q => dictInsert acc q.1 q.2) d
        = ps.foldl (fun acc q => dictInsert acc q.1 q.2) (dictInsert d p.1 p.2) := by
          simp [List.foldl_cons]
      _ = (d ++ [p]) ++ ps := by rw [h1, foldl_dictInsert_fresh ps (d ++ [p]) h2 h3]
      _ = d ++ p :: ps := by simp

theorem dictGet_of_mem_nodup :
    ∀ (ps : List (String × String)), (ps.map (fun p => p.1)).Nodup →
      ∀ {k v : String}, (k, v) ∈ ps → dictGet ps k = some v
  | [], _, _, _, h => by simp at h
  | q :: ps, hnd, k, v, h => by
    rcases List.mem_cons.mp h with rfl | hmem
    · simp [dictGet, List.find?]
    · have hne : q.1 ≠ k := by
        simp only [List.map_cons, List.nodup_cons] at hnd
        intro he
        exact hnd.1 (he ▸ List.mem_map.mpr ⟨(k, v), hmem, rfl⟩)
      have hnd2 : (ps.map (fun p => p.1)).Nodup := by
        simp only [List.map_cons, List.nodup_cons] at hnd
        exact hnd.2
      have ih := dictGet_of_mem_nodup ps hnd2 hmem
      simp only [dictGet, List.find?] at ih ⊢
      rw [show (q.1 == k) = false by simpa using hne]
      exact ih

theorem AES_KEY_wf : bytesWf AES_KEY := by
  unfold bytesWf
  decide

theorem AES_KEY_length : AES_KEY.length = 16 := by decide

theorem controlFrame_length (forward backward left right speed : Nat) :
    (controlFrame forward backward left right speed).length = 16 := rfl

theorem controlFrame_wf {forward backward left right speed : Nat}
    (hf : forward < 256) (hb : backward < 256) (hl : left < 256) (hr : right < 256)
    (hsp : speed < 256) : blockWf (controlFrame forward backward left right speed) := by
  refine ⟨rfl, ?_⟩
  intro x hx
  simp only [controlFrame, CTL_MARKER, List.cons_append, List.nil_append, List.mem_cons,
    List.not_mem_nil, or_false] at hx
  rcases hx with rfl | rfl | rfl | rfl | rfl | rfl | rfl | rfl | rfl | rfl |
    rfl | rfl | rfl | rfl | rfl | rfl <;> omega

theorem create_message_eq {forward backward left right speed : Nat}
    (hf : forward = 0 ∨ forward = 1) (hb : backward = 0 ∨ backward = 1)
    (hl : left = 0 ∨ left = 1) (hr : right = 0 ∨ right = 1) (hsp : speed ≤ 255) :
    create_message forward backward left right speed =
      some (aesEncrypt AES_KEY (controlFrame forward backward left right speed)) := by
  unfold create_message MessageEncryptor_encrypt
  rw [if_neg (by tauto), if_neg (by tauto), if_neg (by omega),
    if_neg (by simp [controlFrame, CTL_MARKER])]

theorem combo_valid : ∀ c ∈ precomputeCombos,
    (c.1 = 0 ∨ c.1 = 1) ∧ (c.2.1 = 0 ∨ c.2.1 = 1) ∧ (c.2.2.1 = 0 ∨ c.2.2.1 = 1) ∧
    (c.2.2.2.1 = 0 ∨ c.2.2.2.1 = 1) ∧ c.2.2.2.2 ≤ 255 := by decide

theorem comboKeys_nodup : (precomputeCombos.map comboKey).Nodup := by decide

/-- The message effectively stored for a loop combination. -/
theorem storedValue_eq {c : Nat × Nat × Nat × Nat × Nat} (hc : c ∈ precomputeCombos) :
    storedValue c =
      b64encode (aesEncrypt AES_KEY (controlFrame c.1 c.2.1 c.2.2.1 c.2.2.2.1 c.2.2.2.2)) := by
  obtain ⟨h1, h2, h3, h4, h5⟩ := combo_valid c hc
  unfold storedValue
  rw [create_message_eq h1 h2 h3 h4 h5]
  simp only [Option.getD_some]

theorem combo_frame_wf {c : Nat × Nat × Nat × Nat × Nat} (hc : c ∈ precomputeCombos) :
    blockWf (controlFrame c.1 c.2.1 c.2.2.1 c.2.2.2.1 c.2.2.2.2) := by
  obtain ⟨h1, h2, h3, h4, h5⟩ := combo_valid c hc
  exact controlFrame_wf (by omega) (by omega) (by omega) (by omega) (by omega)

/-- After `precompute_messages` on an instance whose in-memory table is empty,
the table (and the persisted file) is exactly the 64 key/value pairs, in loop
order. -/
theorem precompute_messages_empty (file0 : List (String × String)) :
    precompute_messages ⟨[], file0⟩ =
      ⟨precomputeCombos.map (fun c => (comboKey c, storedValue c)),
       precomputeCombos.map (fun c => (comboKey c, storedValue c))⟩ := by
  unfold precompute_messages
  have hmap : precomputeCombos.foldl
      (fun acc c => dictInsert acc (comboKey c) (storedValue c)) [] =
      (precomputeCombos.map (fun c => (comboKey c, storedValue c))).foldl
        (fun acc p => dictInsert acc p.1 p.2) [] := by
    rw [List.foldl_map]
  have hnodup : ((precomputeCombos.map (fun c => (comboKey c, storedValue c))).map
      (fun p => p.1)).Nodup := by
    rw [List.map_map]
    exact comboKeys_nodup
  have hfresh : ∀ p ∈ precomputeCombos.map (fun c => (comboKey c, storedValue c)),
      ∀ q ∈ ([] : List (String × String)), q.1 ≠ p.1 := by
    intro p _ q hq
    simp at hq
  simp only [hmap, foldl_dictInsert_fresh _ _ hfresh hnodup, List.nil_append]

/-! ## joycon_handler.py — Python values, exceptions, and the input mapper -/

deriving instance DecidableEq for Except

/-- Python runtime values, as far as the JoyCon snapshot handling needs them:
booleans, integers, floats (modelled as rationals), strings, dictionaries. -/
inductive PyVal where
  | bool : Bool → PyVal
  | int : Int → PyVal
  | float : ℚ → PyVal
  | str : String → PyVal
  | dict : List (String × PyVal) → PyVal

/-- The Python exceptions arising in `parse_joycon_status`. -/
inductive PyErr where
  | keyError
  | typeError
  | attributeError
  | valueError
deriving DecidableEq

/-- Python truthiness (`bool(v)`). -/
def pyTruthy : PyVal → Bool
  | .bool b => b
  | .int n => !(n == 0)
  | .float q => !(q == 0)
  | .str s => !(s == "")
  | .dict d => !d.isEmpty

/-- Dictionary lookup. -/
def pyLookup (d : List (String × PyVal)) (k : String) : Option PyVal :=
  (d.find? (fun p => p.1 == k)).map (fun p => p.2)

/-- Key membership (`k in d`) on a dictionary. -/
def pyHasKey (d : List (String × PyVal)) (k : String) : Bool :=
  d.any (fun p => p.1 == k)

/-- `v[k]`: KeyError for a dict without the key, TypeError on non-dicts. -/
def pySubscript (v : PyVal) (k : String) : Except PyErr PyVal :=
  match v with
  | .dict d =>
    match pyLookup d k with
    | some x => .ok x
    | Option.none => .error .keyError
  | _ => .error .typeError

/-- `v.get(k, dflt)`: AttributeError when `v` has no `get` method (non-dict). -/
def pyGet (v : PyVal) (k : String) (dflt : PyVal) : Except PyErr PyVal :=
  match v with
  | .dict d => .ok ((pyLookup d k).getD dflt)
  | _ => .error .attributeError

/-- `k in v`: membership for dicts, substring test for strings, TypeError on
other values. -/
def pyContains (v : PyVal) (k : String) : Except PyErr Bool :=
  match v with
  | .dict d => .ok (pyHasKey d k)
  | .str s => .ok ((s.splitOn k).length > 1)
  | _ => .error .typeError

/-- Numeric coercion: `abs`, comparisons and `min`/`max` raise TypeError on
non-numeric operands (Python `bool` is an `int` subclass). -/
def pyToRat : PyVal → Except PyErr ℚ
  | .float q => .ok q
  | .int n => .ok (n : ℚ)
  | .bool b => .ok (if b then 1 else 0)
  | _ => .error .typeError

/-- An f-string placeholder `{v:.3f}`: ValueError on values that do not accept
the float format code. -/
def pyFmtF : PyVal → Except PyErr Unit
  | .float _ => .ok ()
  | .int _ => .ok ()
  | .bool _ => .ok ()
  | _ => .error .valueError

/-- `_get_speed_from_buttons`, including its internal
`except (KeyError, TypeError)`: `none` when no speed button is pressed or when
a lookup fails. -/
def get_speed_from_buttons (status : List (String × PyVal)) (device_type : String) :
    Option Nat :=
  let run : Except PyErr (Option Nat) := do
    if device_type = "Plus" then
      let buttons ← pySubscript (.dict status) "buttons"
      let side ← pySubscript buttons "right"
      let a ← pySubscript side "a"
      if pyTruthy a then return some SPEED_LOW
      else
        let b ← pySubscript side "b"
        if pyTruthy b then return some SPEED_MEDIUM
        else
          let y ← pySubscript side "y"
          if pyTruthy y then return some SPEED_HIGH
          else
            let x ← pySubscript side "x"
            if pyTruthy x then return some SPEED_MAX
            else return Option.none
    else if device_type = "Minus" then
      let buttons ← pySubscript (.dict status) "buttons"
      let side ← pySubscript buttons "left"
      let l ← pySubscript side "left"
      if pyTruthy l then return some SPEED_LOW
      else
        let d ← pySubscript side "down"
        if pyTruthy d then return some SPEED_MEDIUM
        else
          let r ← pySubscript side "right"
          if pyTruthy r then return some SPEED_HIGH
          else
            let u ← pySubscript side "up"
            if pyTruthy u then return some SPEED_MAX
            else return Option.none
    else return Option.none
  match run with
  | .ok r => r
  | .error _ => Option.none

/-- `_apply_deadzone`. -/
def apply_deadzone (value : ℚ) (deadzone : ℚ) : ℚ :=
  if |value| < deadzone then 0 else value

/-- `_get_steering_from_offset_axis` (fixed fallback centre 0.057 before
calibration completes). -/
def get_steering_from_offset_axis (axis_value : ℚ) (center : Option ℚ) (threshold : ℚ) :
    Nat × Nat :=
  let c := center.getD (mkRat 57 1000)
  let offset := axis_value - c
  if |offset| < threshold then (0, 0)
  else (if offset < 0 then 1 else 0, if offset > 0 then 1 else 0)

/-- The centre-calibration state of a `JoyConHandler`.  `none` for `y_min` /
`y_max` models the `float('inf')` / `float('-inf')` sentinels. -/
structure CalState where
  y_center : Option ℚ
  y_min : Option ℚ
  y_max : Option ℚ
  samples : List ℚ
  calibrated : Bool
deriving DecidableEq

/-- The state of a freshly constructed handler. -/
def initCalState : CalState := ⟨Option.none, Option.none, Option.none, [], false⟩

/-- `sorted(samples)[len(samples) // 2]` (the fallback median; an out-of-range
index reads 0, but the fallback is only reached with nonempty samples). -/
def sortedMedian (l : List ℚ) : ℚ :=
  (l.mergeSort (fun a b => decide (a ≤ b))).getD (l.length / 2) 0

/-- `_update_center_calibration`. -/
def update_center_calibration (st : CalState) (y : ℚ) (max_samples : Nat) : CalState :=
  if y ≠ 0 then
    let ymin : Option ℚ := some (match st.y_min with | some m => min m y | Option.none => y)
    let ymax : Option ℚ := some (match st.y_max with | some m => max m y | Option.none => y)
    let samples := st.samples ++ [y]
    if samples.length ≥ max_samples ∧ st.calibrated = false then
      if ymin.isSome ∧ ymax.isSome then
        { y_center := some ((ymin.getD 0 + ymax.getD 0) / 2), y_min := ymin, y_max := ymax,
          samples := samples, calibrated := true }
      else
        { y_center := some (sortedMedian samples), y_min := ymin, y_max := ymax,
          samples := samples, calibrated := true }
    else
      { y_center := st.y_center, y_min := ymin, y_max := ymax,
        samples := samples, calibrated := st.calibrated }
  else st

/-- `d.get(k1, d.get(k2, 0.0))` (defaults are evaluated innermost first). -/
def pyGet2 (v : PyVal) (k1 k2 : String) : Except PyErr PyVal := do
  let d2 ← pyGet v k2 (.float 0)
  pyGet v k1 d2

/-- `d.get(k1, d.get(k2, d.get(k3, 0.0)))`. -/
def pyGet3 (v : PyVal) (k1 k2 k3 : String) : Except PyErr PyVal := do
  let d3 ← pyGet v k3 (.float 0)
  let d2 ← pyGet v k2 d3
  pyGet v k1 d2

/-- Axis extraction, last fallback: the flat `..._stick_x` / `..._stick_y`
keys; both axes default to `0.0`. -/
def getAnalogsStick (status : List (String × PyVal)) (kx ky : String) :
    Except PyErr (PyVal × PyVal) := do
  if pyHasKey status kx || pyHasKey status ky then
    let x ← pyGet (.dict status) kx (.float 0)
    let y ← pyGet (.dict status) ky (.float 0)
    return (x, y)
  else
    return (.float 0, .float 0)

/-- Axis extraction, third layout: `status["stick"][side]`. -/
def getAnalogsB3 (status : List (String × PyVal)) (side kx ky : String) :
    Except PyErr (PyVal × PyVal) := do
  if pyHasKey status "stick" then
    let an ← pySubscript (.dict status) "stick"
    let h ← pyContains an side
    if h then
      let sr ← pySubscript an side
      let x ← pyGet2 sr "x" "horizontal"
      let y ← pyGet2 sr "y" "vertical"
      return (x, y)
    else getAnalogsStick status kx ky
  else getAnalogsStick status kx ky

/-- Axis extraction, second layout: `status["analog-sticks"][side]`. -/
def getAnalogsB2 (status : List (String × PyVal)) (side kx ky : String) :
    Except PyErr (PyVal × PyVal) := do
  if pyHasKey status "analog-sticks" then
    let an ← pySubscript (.dict status) "analog-sticks"
    let h ← pyContains an side
    if h then
      let sr ← pySubscript an side
      let x ← pyGet3 sr "x" "horizontal" "stick_x"
      let y ← pyGet3 sr "y" "vertical" "stick_y"
      return (x, y)
    else getAnalogsB3 status side kx ky
  else getAnalogsB3 status side kx ky

/-- Axis extraction, first layout: `status["analogs"][side]`, with the further
layouts as fallbacks. -/
def getAnalogs (status : List (String × PyVal)) (side kx ky : String) :
    Except PyErr (PyVal × PyVal) := do
  if pyHasKey status "analogs" then
    let an ← pySubscript (.dict status) "analogs"
    let h ← pyContains an side
    if h then
      let sr ← pySubscript an side
      let x ← pyGet3 sr "x" "stick_x" "horizontal"
      let y ← pyGet3 sr "y" "stick_y" "vertical"
      return (x, y)
    else getAnalogsB2 status side kx ky
  else getAnalogsB2 status side kx ky

/-- Raw integer axis values are normalized to [-1, 1] by `value / 32768`
(Python `bool` is an `int` subclass and is normalized the same way). -/
def normalizeAxis (v : PyVal) : PyVal :=
  match v with
  | .int n => if n ≠ 0 then .float (mkRat n 32768) else .float 0
  | .bool b => if b then .float (mkRat 1 32768) else .float 0
  | x => x

/-- Tag an exception with the calibration state at the raise site (Python
mutates `self._y_*` in place, so a caught exception keeps earlier updates). -/
def liftCal {α : Type} (cal : CalState) : Except PyErr α → Except (PyErr × CalState) α
  | .ok a => .ok a
  | .error e => .error (e, cal)

/-- The body of `parse_joycon_status` (the code inside its `try:`).  Logging
statements are modelled only through their guard conditions and f-string
placeholders — the only sub-expressions of them that can raise — with the
logger itself treated as disabled. -/
def parse_run (cal : CalState) (status : List (String × PyVal)) (device_type : String)
    (current_speed : Nat) (rotated : Bool) :
    Except (PyErr × CalState) ((Nat × Nat × Nat × Nat × Nat) × CalState) := do
  let speed := (get_speed_from_buttons status device_type).getD current_speed
  if device_type = "Plus" ∨ device_type = "Minus" then
    let side := if device_type = "Plus" then "right" else "left"
    let b1 ← liftCal cal (pyGet (.dict status) "buttons" (.dict []))
    let r1 ← liftCal cal (pyGet b1 side (.dict []))
    let srv ← liftCal cal (pyGet r1 "sr" (.bool false))
    let forward : Nat := if pyTruthy srv then 1 else 0
    let b2 ← liftCal cal (pyGet (.dict status) "buttons" (.dict []))
    let r2 ← liftCal cal (pyGet b2 side (.dict []))
    let slv ← liftCal cal (pyGet r2 "sl" (.bool false))
    let backward : Nat := if pyTruthy slv then 1 else 0
    let xy ← liftCal cal (getAnalogs status side
      (if device_type = "Plus" then "right_stick_x" else "left_stick_x")
      (if device_type = "Plus" then "right_stick_y" else "left_stick_y"))
    let x := normalizeAxis xy.1
    let y := normalizeAxis xy.2
    let res : Nat × Nat × ℚ × CalState ←
      if rotated then do
        let yq0 ← liftCal cal (pyToRat y)
        let cal1 := update_center_calibration cal yq0 100
        let xq ← liftCal cal1 (pyToRat x)
        if xq < 0 then
          let steering := apply_deadzone xq JOYCON_DEADZONE
          pure (((if steering < 0 then 1 else 0) : Nat),
            ((if steering > 0 then 1 else 0) : Nat), xq, cal1)
        else do
          let yq ← liftCal cal1 (pyToRat y)
          let lr := get_steering_from_offset_axis yq cal1.y_center JOYCON_DEADZONE
          pure (lr.1, lr.2, yq, cal1)
      else do
        let xq ← liftCal cal (pyToRat x)
        let steering := apply_deadzone xq JOYCON_DEADZONE
        pure (((if steering < 0 then 1 else 0) : Nat),
          ((if steering > 0 then 1 else 0) : Nat), xq, cal)
    let left := res.1
    let right := res.2.1
    let steerRaw := res.2.2.1
    let calOut := res.2.2.2
    if left ≠ 0 ∨ right ≠ 0 then
      let _ ← liftCal calOut (pyFmtF y)
      return ((forward, backward, left, right, speed), calOut)
    else if |steerRaw| > mkRat 1 100 then
      let _ ← liftCal calOut (pyFmtF y)
      return ((forward, backward, left, right, speed), calOut)
    else do
      let yq ← liftCal calOut (pyToRat y)
      if |yq| > mkRat 1 100 then
        let _ ← liftCal calOut (pyFmtF y)
        return ((forward, backward, left, right, speed), calOut)
      else
        return ((forward, backward, left, right, speed), calOut)
  else
    return ((0, 0, 0, 0, speed), cal)

/-- `parse_joycon_status`: the `try/except (KeyError, TypeError)` wrapper.
Those two exception classes degrade to the neutral tuple; any other exception
(notably AttributeError from `.get` on a non-dict) propagates to the caller. -/
def parse_joycon_status (cal : CalState) (status : List (String × PyVal))
    (device_type : String) (current_speed : Nat) (rotated : Bool) :
    Except (PyErr × CalState) ((Nat × Nat × Nat × Nat × Nat) × CalState) :=
  match parse_run cal status device_type current_speed rotated with
  | .error (.keyError, calE) => .ok ((0, 0, 0, 0, current_speed), calE)
  | .error (.typeError, calE) => .ok ((0, 0, 0, 0, current_speed), calE)
  | r => r

/-! ## Supporting lemmas about the input mapper -/

theorem pyLookup_eq_none {d : List (String × PyVal)} {k : String}
    (h : pyHasKey d k = false) : pyLookup d k = Option.none := by
  unfold pyLookup
  rw [List.find?_eq_none.mpr]
  · rfl
  · intro p hp
    unfold pyHasKey at h
    rw [List.any_eq_false] at h
    simpa using h p hp

/-- A snapshot whose only datum is the right-stick horizontal axis. -/
def plusAxisSnapshot (v : ℚ) : List (String × PyVal) :=
  [("analogs", PyVal.dict [("right", PyVal.dict [("x", PyVal.float v)])])]

theorem parse_plus_axis (cal : CalState) (v : ℚ) (cs : Nat) :
    parse_joycon_status cal (plusAxisSnapshot v) "Plus" cs false =
    .ok ((0, 0, (if apply_deadzone v JOYCON_DEADZONE < 0 then 1 else 0),
      (if apply_deadzone v JOYCON_DEADZONE > 0 then 1 else 0), cs), cal) := by
  simp [plusAxisSnapshot, parse_joycon_status, parse_run, get_speed_from_buttons, getAnalogs,
    getAnalogsB2, getAnalogsB3, getAnalogsStick, pyGet, pyGet2, pyGet3, pySubscript,
    pyLookup, pyHasKey, pyContains, pyTruthy, pyToRat, pyFmtF, normalizeAxis,
    liftCal, apply_deadzone, Except.bind, bind, pure, Except.pure]

/-- The Plus-side snapshot with the four speed-tier buttons. -/
def plusButtonsSnapshot (pa pb py px : Bool) : List (String × PyVal) :=
  [("buttons", PyVal.dict [("right", PyVal.dict
    [("a", PyVal.int (if pa then 1 else 0)), ("b", PyVal.int (if pb then 1 else 0)),
     ("y", PyVal.int (if py then 1 else 0)), ("x", PyVal.int (if px then 1 else 0))])])]

/-- The Minus-side snapshot with the four speed-tier buttons. -/
def minusButtonsSnapshot (pl pd pr pu : Bool) : List (String × PyVal) :=
  [("buttons", PyVal.dict [("left", PyVal.dict
    [("left", PyVal.int (if pl then 1 else 0)), ("down", PyVal.int (if pd then 1 else 0)),
     ("right", PyVal.int (if pr then 1 else 0)), ("up", PyVal.int (if pu then 1 else 0))])])]

/-- The snapshot keys consulted by `parse_joycon_status` and
`_get_speed_from_buttons`. -/
def controlDataKeys : List String :=
  ["buttons", "analogs", "analog-sticks", "stick",
   "right_stick_x", "right_stick_y", "left_stick_x", "left_stick_y"]

theorem get_speed_none {status : List (String × PyVal)} (dt : String)
    (h : pyHasKey status "buttons" = false) :
    get_speed_from_buttons status dt = Option.none := by
  by_cases h1 : dt = "Plus"
  · subst h1
    simp [get_speed_from_buttons, pySubscript, pyLookup_eq_none h, Except.bind, bind]
  · by_cases h2 : dt = "Minus"
    · subst h2
      simp [get_speed_from_buttons, pySubscript, pyLookup_eq_none h, Except.bind, bind]
    · simp [get_speed_from_buttons, h1, h2, pure, Except.pure]

/-! ## Supporting lemmas about centre calibration -/

theorem min?_append_single (l : List ℚ) (y : ℚ) :
    (l ++ [y]).min? = some (match l.min? with | some m => min m y | Option.none => y) := by
  cases l with
  | nil => rfl
  | cons a l => simp [List.min?, List.foldl_append]

theorem max?_append_single (l : List ℚ) (y : ℚ) :
    (l ++ [y]).max? = some (match l.max? with | some m => max m y | Option.none => y) := by
  cases l with
  | nil => rfl
  | cons a l => simp [List.max?, List.foldl_append]

theorem step_eq_zero {s : CalState} {y : ℚ} {N : Nat} (h : y = 0) :
    update_center_calibration s y N = s := by
  simp [update_center_calibration, h]

theorem step_samples_ne {s : CalState} {y : ℚ} {N : Nat} (h : y ≠ 0) :
    (update_center_calibration s y N).samples = s.samples ++ [y] := by
  cases hmin : s.y_min <;> cases hmax : s.y_max <;>
    · simp [update_center_calibration, h, hmin, hmax]
      split <;> rfl

theorem step_y_min_ne {s : CalState} {y : ℚ} {N : Nat} (h : y ≠ 0) :
    (update_center_calibration s y N).y_min =
      some (match s.y_min with | some m => min m y | Option.none => y) := by
  cases hmin : s.y_min <;> cases hmax : s.y_max <;>
    · simp [update_center_calibration, h, hmin, hmax]
      split <;> rfl

theorem step_y_max_ne {s : CalState} {y : ℚ} {N : Nat} (h : y ≠ 0) :
    (update_center_calibration s y N).y_max =
      some (match s.y_max with | some m => max m y | Option.none => y) := by
  cases hmin : s.y_min <;> cases hmax : s.y_max <;>
    · simp [update_center_calibration, h, hmin, hmax]
      split <;> rfl

theorem step_calibrated_stays {s : CalState} {y : ℚ} {N : Nat} (h : s.calibrated = true) :
    (update_center_calibration s y N).y_center = s.y_center ∧
      (update_center_calibration s y N).calibrated = true := by
  by_cases hy : y = 0
  · rw [step_eq_zero hy]
    exact ⟨rfl, h⟩
  · unfold update_center_calibration
    rw [if_pos hy]
    have hc : ¬ ((s.samples ++ [y]).length ≥ N ∧ s.calibrated = false) := by
      simp [h]
    rw [if_neg hc]
    exact ⟨rfl, h⟩

theorem fold_calibrated_stays {N : Nat} :
    ∀ (ws : List ℚ) (s : CalState), s.calibrated = true →
      (ws.foldl (fun a y => update_center_calibration a y N) s).y_center = s.y_center ∧
      (ws.foldl (fun a y => update_center_calibration a y N) s).calibrated = true
  | [], s, h => ⟨rfl, h⟩
  | y :: ws, s, h => by
    obtain ⟨hc1, hc2⟩ := step_calibrated_stays (y := y) (N := N) h
    obtain ⟨ih1, ih2⟩ := fold_calibrated_stays ws (update_center_calibration s y N) hc2
    exact ⟨ih1.trans hc1, ih2⟩

theorem fold_samples {N : Nat} :
    ∀ (vs : List ℚ) (s : CalState),
      (vs.foldl (fun a y => update_center_calibration a y N) s).samples =
        s.samples ++ vs.filter (fun y => decide (y ≠ 0))
  | [], s => by simp
  | y :: vs, s => by
    by_cases hy : y = 0
    · rw [List.foldl_cons, step_eq_zero hy, fold_samples vs s]
      simp [hy]
    · rw [List.foldl_cons, fold_samples vs _, step_samples_ne hy]
      simp [hy]

theorem fold_min_max {N : Nat} :
    ∀ (vs : List ℚ) (s : CalState),
      s.y_min = s.samples.min? → s.y_max = s.samples.max? →
      (vs.foldl (fun a y => update_center_calibration a y N) s).y_min =
        (vs.foldl (fun a y => update_center_calibration a y N) s).samples.min? ∧
      (vs.foldl (fun a y => update_center_calibration a y N) s).y_max =
        (vs.foldl (fun a y => update_center_calibration a y N) s).samples.max?
  | [], s, hmin, hmax => ⟨hmin, hmax⟩
  | y :: vs, s, hmin, hmax => by
    rw [List.foldl_cons]
    by_cases hy : y = 0
    · rw [step_eq_zero hy]
      exact fold_min_max vs s hmin hmax
    · refine fold_min_max vs _ ?_ ?_
      · rw [step_y_min_ne hy, step_samples_ne hy, min?_append_single, hmin]
      · rw [step_y_max_ne hy, step_samples_ne hy, max?_append_single, hmax]

theorem step_transition {s : CalState} {v : ℚ} {N : Nat}
    (h1 : s.calibrated = false) (h2 : (update_center_calibration s v N).calibrated = true) :
    v ≠ 0 ∧ (update_center_calibration s v N).y_center =
      some (((match s.y_min with | some m => min m v | Option.none => v) +
        (match s.y_max with | some m => max m v | Option.none => v)) / 2) := by
  have hv : v ≠ 0 := by
    intro h0
    rw [step_eq_zero h0, h1] at h2
    exact Bool.false_ne_true h2
  refine ⟨hv, ?_⟩
  have h2' := h2
  by_cases hlen : N ≤ s.samples.length + 1
  · cases hmin : s.y_min <;> cases hmax : s.y_max <;>
      simp [update_center_calibration, hv, hmin, hmax, h1, hlen]
  · cases hmin : s.y_min <;> cases hmax : s.y_max <;>
      simp [update_center_calibration, hv, hmin, hmax, h1, hlen] at h2' 

/-! ## The specification claims -/

/-- **C1.** For forward=1, backward=0, left=0, right=0, speed=0x50 the plaintext
frame built by `_create_message` before encryption is exactly the sixteen bytes
00 43 54 4C 01 00 00 00 00 50 00 00 00 00 00 00; in general every frame is 16
bytes with byte 0 zero, bytes 1-3 the ASCII marker "CTL", bytes 4-7 the
forward/backward/left/right flags, byte 8 zero, byte 9 the speed value and
bytes 10-15 zero. -/
theorem C1_frame_layout :
    controlFrame 1 0 0 0 0x50 =
      [0x00, 0x43, 0x54, 0x4C, 0x01, 0x00, 0x00, 0x00, 0x00, 0x50,
       0x00, 0x00, 0x00, 0x00, 0x00, 0x00] ∧
    "CTL".toList.map Char.toNat = CTL_MARKER ∧
    ∀ forward backward left right speed : Nat,
      (controlFrame forward backward left right speed).length = 16 ∧
      (controlFrame forward backward left right speed).getD 0 256 = 0 ∧
      (controlFrame forward backward left right speed).getD 1 256 = 0x43 ∧
      (controlFrame forward backward left right speed).getD 2 256 = 0x54 ∧
      (controlFrame forward backward left right speed).getD 3 256 = 0x4C ∧
      (controlFrame forward backward left right speed).getD 4 256 = forward ∧
      (controlFrame forward backward left right speed).getD 5 256 = backward ∧
      (controlFrame forward backward left right speed).getD 6 256 = left ∧
      (controlFrame forward backward left right speed).getD 7 256 = right ∧
      (controlFrame forward backward left right speed).getD 8 256 = 0 ∧
      (controlFrame forward backward left right speed).getD 9 256 = speed ∧
      (controlFrame forward backward left right speed).getD 10 256 = 0 ∧
      (controlFrame forward backward left right speed).getD 11 256 = 0 ∧
      (controlFrame forward backward left right speed).getD 12 256 = 0 ∧
      (controlFrame forward backward left right speed).getD 13 256 = 0 ∧
      (controlFrame forward backward left right speed).getD 14 256 = 0 ∧
      (controlFrame forward backward left right speed).getD 15 256 = 0 :=
  ⟨rfl, rfl, fun _ _ _ _ _ =>
    ⟨rfl, rfl, rfl, rfl, rfl, rfl, rfl, rfl, rfl, rfl, rfl, rfl, rfl, rfl, rfl, rfl, rfl⟩⟩

/-- **C2.** For every 16-byte plaintext and every 16-byte AES key,
`MessageEncryptor.decrypt` inverts `MessageEncryptor.encrypt`. -/
theorem C2_encrypt_decrypt_roundtrip (key P : List Nat)
    (hkl : key.length = 16) (hkw : bytesWf key) (hPl : P.length = 16) (hPw : bytesWf P) :
    (MessageEncryptor_encrypt key P).bind (MessageEncryptor_decrypt key) = some P := by
  have hwf : blockWf P := ⟨hPl, hPw⟩
  have hct : blockWf (aesEncrypt key P) := aesEncrypt_wf hkw hwf
  unfold MessageEncryptor_encrypt MessageEncryptor_decrypt
  rw [if_neg (by simp [hPl])]
  rw [Option.some_bind, if_neg (by simp [hct.1]), aesDecrypt_aesEncrypt hkw hwf]

theorem C2_witness :
    (MessageEncryptor_encrypt AES_KEY (controlFrame 1 0 0 0 0x50)).bind
      (MessageEncryptor_decrypt AES_KEY) = some (controlFrame 1 0 0 0 0x50) :=
  C2_encrypt_decrypt_roundtrip AES_KEY (controlFrame 1 0 0 0 0x50) AES_KEY_length AES_KEY_wf
    rfl (controlFrame_wf (by norm_num) (by norm_num) (by norm_num) (by norm_num)
      (by norm_num)).2

/-- **C3.** For a well-formed control state whose canonical key is absent from the
command table, `retrieve_precomputed_message` returns the 16-byte ciphertext of a
direct `_create_message` call, and neither the in-memory table nor the persisted
file changes (the miss result is not inserted). -/
theorem C3_cache_miss (st : CarState) (forward backward left right speed : Nat)
    (hf : forward = 0 ∨ forward = 1) (hb : backward = 0 ∨ backward = 1)
    (hl : left = 0 ∨ left = 1) (hr : right = 0 ∨ right = 1) (hsp : speed ≤ 255)
    (hmiss : dictGet st.commandList (stateKey forward backward left right speed) =
      Option.none) :
    retrieve_precomputed_message st forward backward left right speed =
      (create_message forward backward left right speed, st) ∧
    create_message forward backward left right speed =
      some (aesEncrypt AES_KEY (controlFrame forward backward left right speed)) ∧
    (aesEncrypt AES_KEY (controlFrame forward backward left right speed)).length = 16 := by
  refine ⟨?_, create_message_eq hf hb hl hr hsp, ?_⟩
  · simp only [retrieve_precomputed_message, hmiss]
  · exact (aesEncrypt_wf AES_KEY_wf
      (controlFrame_wf (by omega) (by omega) (by omega) (by omega) (by omega))).1

theorem C3_witness :
    retrieve_precomputed_message ⟨[], []⟩ 1 0 0 0 0x50 =
      (create_message 1 0 0 0 0x50, ⟨[], []⟩) ∧
    create_message 1 0 0 0 0x50 = some (aesEncrypt AES_KEY (controlFrame 1 0 0 0 0x50)) ∧
    (aesEncrypt AES_KEY (controlFrame 1 0 0 0 0x50)).length = 16 :=
  C3_cache_miss ⟨[], []⟩ 1 0 0 0 0x50 (Or.inr rfl) (Or.inl rfl) (Or.inl rfl) (Or.inl rfl)
    (by norm_num) rfl

/-- **C6.** For flags in {0, 1} and any speed byte, `_create_message` succeeds and
always hands exactly 16 bytes to `MessageEncryptor.encrypt`, so the ValueError
branch for non-16-byte input inside `encrypt` is unreachable from well-formed
control states. -/
theorem C6_create_message_total (forward backward left right speed : Nat)
    (hf : forward = 0 ∨ forward = 1) (hb : backward = 0 ∨ backward = 1)
    (hl : left = 0 ∨ left = 1) (hr : right = 0 ∨ right = 1) (hsp : speed ≤ 255) :
    (controlFrame forward backward left right speed).length = 16 ∧
    MessageEncryptor_encrypt AES_KEY (controlFrame forward backward left right speed) =
      some (aesEncrypt AES_KEY (controlFrame forward backward left right speed)) ∧
    create_message forward backward left right speed =
      some (aesEncrypt AES_KEY (controlFrame forward backward left right speed)) := by
  refine ⟨rfl, ?_, create_message_eq hf hb hl hr hsp⟩
  unfold MessageEncryptor_encrypt
  rw [if_neg (by simp [controlFrame, CTL_MARKER])]

theorem C6_witness :
    (controlFrame 0 1 1 0 255).length = 16 ∧
    MessageEncryptor_encrypt AES_KEY (controlFrame 0 1 1 0 255) =
      some (aesEncrypt AES_KEY (controlFrame 0 1 1 0 255)) ∧
    create_message 0 1 1 0 255 = some (aesEncrypt AES_KEY (controlFrame 0 1 1 0 255)) :=
  C6_create_message_total 0 1 1 0 255 (Or.inl rfl) (Or.inr rfl) (Or.inr rfl) (Or.inl rfl)
    (by norm_num)

/-- **C10.** When the command table holds the canonical key but the stored value
fails base64 decoding, `retrieve_precomputed_message` returns the fixed idle
sentinel instead of recomputing; a stored empty string is instead treated as a
miss and the message is recomputed. -/
theorem C10_bad_stored_entry (st : CarState) (forward backward left right speed : Nat)
    (enc : String)
    (hget : dictGet st.commandList (stateKey forward backward left right speed) = some enc) :
    (enc ≠ "" → b64decode enc = Option.none →
      retrieve_precomputed_message st forward backward left right speed =
        (some IDLE_MESSAGE, st)) ∧
    (enc = "" →
      retrieve_precomputed_message st forward backward left right speed =
        (create_message forward backward left right speed, st)) := by
  constructor
  · intro hne hdec
    simp only [retrieve_precomputed_message, hget, if_neg hne, hdec]
  · intro he
    simp only [retrieve_precomputed_message, hget, if_pos he]

theorem C10_witness :
    retrieve_precomputed_message ⟨[("100080", "A")], []⟩ 1 0 0 0 0x50 =
      (some IDLE_MESSAGE, ⟨[("100080", "A")], []⟩) ∧
    retrieve_precomputed_message ⟨[("100080", "")], []⟩ 1 0 0 0 0x50 =
      (create_message 1 0 0 0 0x50, ⟨[("100080", "")], []⟩) :=
  ⟨(C10_bad_stored_entry ⟨[("100080", "A")], []⟩ 1 0 0 0 0x50 "A" (by decide)).1
      (by decide) (by decide),
   (C10_bad_stored_entry ⟨[("100080", "")], []⟩ 1 0 0 0 0x50 "" (by decide)).2 rfl⟩

theorem precompute_entry (file0 : List (String × String))
    (c : Nat × Nat × Nat × Nat × Nat) (hc : c ∈ precomputeCombos) :
    dictGet (precompute_messages ⟨[], file0⟩).commandList (comboKey c) =
      some (storedValue c) ∧
    storedValue c ≠ "" ∧
    b64decode (storedValue c) =
      some (aesEncrypt AES_KEY (controlFrame c.1 c.2.1 c.2.2.1 c.2.2.2.1 c.2.2.2.2)) ∧
    retrieve_precomputed_message (precompute_messages ⟨[], file0⟩)
        c.1 c.2.1 c.2.2.1 c.2.2.2.1 c.2.2.2.2 =
      (some (aesEncrypt AES_KEY (controlFrame c.1 c.2.1 c.2.2.1 c.2.2.2.1 c.2.2.2.2)),
        precompute_messages ⟨[], file0⟩) := by
  have hfw : blockWf (controlFrame c.1 c.2.1 c.2.2.1 c.2.2.2.1 c.2.2.2.2) :=
    combo_frame_wf hc
  have hcw : blockWf (aesEncrypt AES_KEY (controlFrame c.1 c.2.1 c.2.2.1 c.2.2.2.1 c.2.2.2.2)) :=
    aesEncrypt_wf AES_KEY_wf hfw
  have hget : dictGet (precompute_messages ⟨[], file0⟩).commandList (comboKey c) =
      some (storedValue c) := by
    rw [precompute_messages_empty]
    exact dictGet_of_mem_nodup _
      (by simpa [List.map_map, Function.comp] using comboKeys_nodup)
      (List.mem_map.2 ⟨c, hc, rfl⟩)
  have hsv : storedValue c =
      b64encode (aesEncrypt AES_KEY (controlFrame c.1 c.2.1 c.2.2.1 c.2.2.2.1 c.2.2.2.2)) :=
    storedValue_eq hc
  have hne : storedValue c ≠ "" := by
    rw [hsv]
    apply b64encode_ne_empty
    intro hnil
    have h16 := hcw.1
    rw [hnil] at h16
    simp at h16
  have hdec : b64decode (storedValue c) =
      some (aesEncrypt AES_KEY (controlFrame c.1 c.2.1 c.2.2.1 c.2.2.2.1 c.2.2.2.2)) := by
    rw [hsv]
    exact b64decode_b64encode hcw.2
  refine ⟨hget, hne, hdec, ?_⟩
  have hget' : dictGet (precompute_messages ⟨[], file0⟩).commandList
      (stateKey c.1 c.2.1 c.2.2.1 c.2.2.2.1 c.2.2.2.2) = some (storedValue c) := hget
  simp only [retrieve_precomputed_message, hget', if_neg hne, hdec]

/-- **C4.** After `precompute_messages` runs over the four speed tiers
0x16, 0x32, 0x48, 0x64 starting from an empty in-memory table, the command table
holds exactly 64 entries — one per combination of the four flags and four tiers —
the table is persisted to the commands file, and for each of those 64 states
`retrieve_precomputed_message` returns the stored base64-decoded value (the
ciphertext of the state's frame) without recomputing. -/
theorem C4_precompute_completeness (file0 : List (String × String)) :
    speed_values = [0x16, 0x32, 0x48, 0x64] ∧
    precomputeCombos.length = 64 ∧
    (precompute_messages ⟨[], file0⟩).commandList.length = 64 ∧
    (precompute_messages ⟨[], file0⟩).commandsFile =
      (precompute_messages ⟨[], file0⟩).commandList ∧
    ∀ c ∈ precomputeCombos,
      dictGet (precompute_messages ⟨[], file0⟩).commandList (comboKey c) =
        some (storedValue c) ∧
      retrieve_precomputed_message (precompute_messages ⟨[], file0⟩)
          c.1 c.2.1 c.2.2.1 c.2.2.2.1 c.2.2.2.2 =
        (some (aesEncrypt AES_KEY (controlFrame c.1 c.2.1 c.2.2.1 c.2.2.2.1 c.2.2.2.2)),
          precompute_messages ⟨[], file0⟩) := by
  refine ⟨rfl, rfl, ?_, ?_, fun c hc => ⟨(precompute_entry file0 c hc).1,
    (precompute_entry file0 c hc).2.2.2⟩⟩
  · simp only [precompute_messages_empty, List.length_map]
    rfl
  · rw [precompute_messages_empty]

theorem C4_witness :
    (1, 0, 0, 0, 0x16) ∈ precomputeCombos ∧
    dictGet (precompute_messages ⟨[], []⟩).commandList (comboKey (1, 0, 0, 0, 0x16)) =
      some (storedValue (1, 0, 0, 0, 0x16)) ∧
    (precompute_messages (⟨[], []⟩ : CarState)).commandList.length = 64 :=
  ⟨by decide,
   ((C4_precompute_completeness []).2.2.2.2 (1, 0, 0, 0, 0x16) (by decide)).1,
   (C4_precompute_completeness []).2.2.1⟩

/-- **C5 (counterexample).** The spec says `parse_joycon_status` never raises on
malformed snapshots; but for the snapshot `{"buttons": 5}` the expression
`status["buttons"].get(side, {})` calls `.get` on an `int`, raising an
AttributeError that the `except (KeyError, TypeError)` clause does not catch. -/
theorem C5_counterexample :
    parse_joycon_status initCalState [("buttons", PyVal.int 5)] "Plus" 0x50 false =
      .error (.attributeError, initCalState) := by decide

/-- **C5 (amended).** For every snapshot missing all of the button and axis keys
the parser consults — in particular the empty dictionary — `parse_joycon_status`
in direct mode raises nothing and returns the neutral tuple
(0, 0, 0, 0, current_speed) with the speed passed through unchanged.  (The
original claim over every malformed snapshot is false: see the counterexample,
where a non-dict `"buttons"` value raises an uncaught AttributeError.) -/
theorem C5_amended (cal : CalState) (status : List (String × PyVal))
    (device_type : String) (current_speed : Nat)
    (h : ∀ k ∈ controlDataKeys, pyHasKey status k = false) :
    parse_joycon_status cal status device_type current_speed false =
      .ok ((0, 0, 0, 0, current_speed), cal) := by
  have hb := h "buttons" (by simp [controlDataKeys])
  have ha := h "analogs" (by simp [controlDataKeys])
  have has := h "analog-sticks" (by simp [controlDataKeys])
  have hst := h "stick" (by simp [controlDataKeys])
  have hrx := h "right_stick_x" (by simp [controlDataKeys])
  have hry := h "right_stick_y" (by simp [controlDataKeys])
  have hlx := h "left_stick_x" (by simp [controlDataKeys])
  have hly := h "left_stick_y" (by simp [controlDataKeys])
  have hsp := get_speed_none device_type hb
  have hd0 : apply_deadzone 0 JOYCON_DEADZONE = 0 := by decide
  have hg : ¬ (mkRat 1 100 < (0 : ℚ)) := by decide
  have hnil : ∀ k : String, pyLookup [] k = Option.none := fun _ => rfl
  by_cases h1 : device_type = "Plus"
  · subst h1
    simp [parse_joycon_status, parse_run, hsp, getAnalogs, getAnalogsB2, getAnalogsB3,
      getAnalogsStick, pyGet, pyLookup_eq_none hb, pyLookup_eq_none ha,
      pyLookup_eq_none hrx, pyLookup_eq_none hry, hnil, ha, has, hst,
      hrx, hry, pyTruthy, pyToRat, pyFmtF, normalizeAxis, hd0, hg,
      liftCal, Except.bind, bind, pure, Except.pure]
  · by_cases h2 : device_type = "Minus"
    · subst h2
      simp [parse_joycon_status, parse_run, hsp, getAnalogs, getAnalogsB2, getAnalogsB3,
        getAnalogsStick, pyGet, pyLookup_eq_none hb, pyLookup_eq_none ha,
        pyLookup_eq_none hlx, pyLookup_eq_none hly, hnil, ha, has, hst,
        hlx, hly, pyTruthy, pyToRat, pyFmtF, normalizeAxis, hd0, hg,
        liftCal, Except.bind, bind, pure, Except.pure]
    · simp [parse_joycon_status, parse_run, hsp, h1, h2,
        Except.bind, bind, pure, Except.pure]

theorem C5_witness :
    parse_joycon_status initCalState [("battery", PyVal.int 3)] "Plus" 0x50 false =
      .ok ((0, 0, 0, 0, 0x50), initCalState) :=
  C5_amended initCalState [("battery", PyVal.int 3)] "Plus" 0x50 (by decide)

/-- **C7.** In direct axis mode with deadzone 0.1: an axis value of magnitude
strictly below the threshold sets neither steering flag; one of magnitude above
the threshold sets exactly left (negative) or right (positive); zero sets
neither. -/
theorem C7_deadzone_steering (cal : CalState) (current_speed : Nat) (v : ℚ) :
    (|v| < mkRat 1 10 →
      parse_joycon_status cal (plusAxisSnapshot v) "Plus" current_speed false =
        .ok ((0, 0, 0, 0, current_speed), cal)) ∧
    (mkRat 1 10 < |v| → v < 0 →
      parse_joycon_status cal (plusAxisSnapshot v) "Plus" current_speed false =
        .ok ((0, 0, 1, 0, current_speed), cal)) ∧
    (mkRat 1 10 < |v| → 0 < v →
      parse_joycon_status cal (plusAxisSnapshot v) "Plus" current_speed false =
        .ok ((0, 0, 0, 1, current_speed), cal)) ∧
    (v = 0 →
      parse_joycon_status cal (plusAxisSnapshot v) "Plus" current_speed false =
        .ok ((0, 0, 0, 0, current_speed), cal)) := by
  have hdz : JOYCON_DEADZONE = mkRat 1 10 := rfl
  refine ⟨?_, ?_, ?_, ?_⟩
  · intro h
    rw [parse_plus_axis]
    have hd : apply_deadzone v JOYCON_DEADZONE = 0 := by
      unfold apply_deadzone
      rw [if_pos (by rw [hdz]; exact h)]
    rw [hd]
    simp
  · intro h hneg
    rw [parse_plus_axis]
    have hd : apply_deadzone v JOYCON_DEADZONE = v := by
      unfold apply_deadzone
      rw [if_neg (by rw [hdz]; exact not_lt.mpr h.le)]
    rw [hd, if_pos hneg, if_neg (lt_asymm hneg)]
  · intro h hpos
    rw [parse_plus_axis]
    have hd : apply_deadzone v JOYCON_DEADZONE = v := by
      unfold apply_deadzone
      rw [if_neg (by rw [hdz]; exact not_lt.mpr h.le)]
    rw [hd, if_neg (lt_asymm hpos), if_pos hpos]
  · intro h
    subst h
    rw [parse_plus_axis]
    have hd : apply_deadzone 0 JOYCON_DEADZONE = 0 := by decide
    rw [hd]
    simp

theorem C7_witness :
    parse_joycon_status initCalState (plusAxisSnapshot (mkRat 99 1000)) "Plus" 0x50 false =
      .ok ((0, 0, 0, 0, 0x50), initCalState) ∧
    parse_joycon_status initCalState (plusAxisSnapshot (mkRat (-101) 1000)) "Plus" 0x50 false =
      .ok ((0, 0, 1, 0, 0x50), initCalState) ∧
    parse_joycon_status initCalState (plusAxisSnapshot (mkRat 101 1000)) "Plus" 0x50 false =
      .ok ((0, 0, 0, 1, 0x50), initCalState) :=
  ⟨(C7_deadzone_steering initCalState 0x50 (mkRat 99 1000)).1 (by decide),
   (C7_deadzone_steering initCalState 0x50 (mkRat (-101) 1000)).2.1 (by decide) (by decide),
   (C7_deadzone_steering initCalState 0x50 (mkRat 101 1000)).2.2.1 (by decide) (by decide)⟩

/-- **C8.** For button-only snapshots on the selected side: when no speed-tier
button is pressed the returned speed is `current_speed` unchanged, and when
several are pressed the first in the fixed priority order low, medium, high,
max (0x16, 0x32, 0x48, 0x64) wins — on the Plus side via a, b, y, x and on the
Minus side via left, down, right, up. -/
theorem C8_speed_priority (cal : CalState) (current_speed : Nat) (p1 p2 p3 p4 : Bool) :
    parse_joycon_status cal (plusButtonsSnapshot p1 p2 p3 p4) "Plus" current_speed false =
      .ok ((0, 0, 0, 0,
        if p1 then SPEED_LOW else if p2 then SPEED_MEDIUM else if p3 then SPEED_HIGH
        else if p4 then SPEED_MAX else current_speed), cal) ∧
    parse_joycon_status cal (minusButtonsSnapshot p1 p2 p3 p4) "Minus" current_speed false =
      .ok ((0, 0, 0, 0,
        if p1 then SPEED_LOW else if p2 then SPEED_MEDIUM else if p3 then SPEED_HIGH
        else if p4 then SPEED_MAX else current_speed), cal) := by
  cases p1 <;> cases p2 <;> cases p3 <;> cases p4 <;> exact ⟨rfl, rfl⟩

/-- **C9.** Along any sequence of calibration updates from a fresh handler: at
the moment the calibrated flag turns true the stored centre equals
(min + max) / 2 of the non-zero samples seen so far, and every later update
leaves both the centre and the flag unchanged (no re-calibration). -/
theorem C9_calibration_freeze (N : Nat) (vs ws : List ℚ) (v : ℚ)
    (h1 : (vs.foldl (fun a y => update_center_calibration a y N) initCalState).calibrated =
      false)
    (h2 : (update_center_calibration
      (vs.foldl (fun a y => update_center_calibration a y N) initCalState) v N).calibrated =
      true) :
    (∃ lo hi,
      ((vs ++ [v]).filter (fun y => decide (y ≠ 0))).min? = some lo ∧
      ((vs ++ [v]).filter (fun y => decide (y ≠ 0))).max? = some hi ∧
      (update_center_calibration
        (vs.foldl (fun a y => update_center_calibration a y N) initCalState) v N).y_center =
        some ((lo + hi) / 2)) ∧
    (ws.foldl (fun a y => update_center_calibration a y N)
        (update_center_calibration
          (vs.foldl (fun a y => update_center_calibration a y N) initCalState) v N)).y_center =
      (update_center_calibration
        (vs.foldl (fun a y => update_center_calibration a y N) initCalState) v N).y_center ∧
    (ws.foldl (fun a y => update_center_calibration a y N)
        (update_center_calibration
          (vs.foldl (fun a y => update_center_calibration a y N) initCalState) v N)).calibrated =
      true := by
  set s := vs.foldl (fun a y => update_center_calibration a y N) initCalState with hs
  obtain ⟨hv, hcen⟩ := step_transition h1 h2
  have hsam : s.samples = vs.filter (fun y => decide (y ≠ 0)) := by
    rw [hs, fold_samples vs initCalState]
    rfl
  have hinv := fold_min_max (N := N) vs initCalState rfl rfl
  rw [← hs] at hinv
  have hfil : (vs ++ [v]).filter (fun y => decide (y ≠ 0)) = s.samples ++ [v] := by
    rw [List.filter_append, hsam]
    simp [hv]
  refine ⟨⟨(match s.y_min with | some m => min m v | Option.none => v),
    (match s.y_max with | some m => max m v | Option.none => v), ?_, ?_, hcen⟩,
    (fold_calibrated_stays ws _ h2).1, (fold_calibrated_stays ws _ h2).2⟩
  · rw [hfil, min?_append_single, hinv.1]
  · rw [hfil, max?_append_single, hinv.2]

theorem C9_witness :
    (update_center_calibration initCalState 1 1).calibrated = true ∧
    ([mkRat 1 2].foldl (fun a y => update_center_calibration a y 1)
      (update_center_calibration initCalState 1 1)).y_center =
      (update_center_calibration initCalState 1 1).y_center := by
  have h := C9_calibration_freeze 1 [] [mkRat 1 2] 1 rfl (by decide)
  exact ⟨by decide, h.2.1⟩
